import Mathlib

set_option autoImplicit false
set_option maxRecDepth 16384

/-!
# Shallow embedding of the addons-linter manifest validation engine

This file embeds `src/parsers/manifestjson.js` (the manifest-validation
engine of the addons-linter repository) into Lean and proves properties of
the embedded code.

Modelling conventions:
* JavaScript strings are Lean `String`s; JavaScript arrays are Lean lists.
* JSON `undefined` and JSON `null` are both modelled as `Option.none`
  (the analysed code never distinguishes them in the fragments below,
  except where noted in a comment).
* The diagnostic collector is append-only, so every validation rule is
  embedded as a pure function returning the list of diagnostics that the
  rule appends, together with the boolean saying whether the rule assigned
  `this.isValid = false`.
* External collaborators of the engine (`utils`, `const`, the `messages`
  catalogue, the JSON-schema validator, the image decoder) are not part of
  the analysed source; definitions standing for them are modelled from the
  specification and carry a doc comment starting with `Modelled from the
  spec:`.
-/

/-! ## Diagnostics model -/

inductive Severity where
  | error
  | warning
  | notice
deriving DecidableEq, Repr

/-- One classified finding: a stable code, a human-readable message and an
optional longer description (mirroring the message objects of the external
`messages` catalogue). -/
structure Msg where
  code : String
  text : String
  description : Option String
deriving DecidableEq, Repr

/-- A diagnostic as appended to the collector: a severity plus a message. -/
structure Diag where
  sev : Severity
  msg : Msg
deriving DecidableEq, Repr

/-! ## JavaScript string helpers, over `List Char` -/

/-- `String.split(sep)`: splits at every occurrence of the separator,
dropping the separators and keeping empty chunks. -/
def splitOnSep (sep : Char) : List Char → List (List Char)
  | [] => [[]]
  | c :: rest =>
    let r := splitOnSep sep rest
    if c = sep then [] :: r
    else
      match r with
      | [] => [[c]]
      | h :: t => (c :: h) :: t

def splitWhiteAux : List Char → List Char → List (List Char)
  | [], acc => if acc.isEmpty then [] else [acc.reverse]
  | c :: rest, acc =>
    if c.isWhitespace then
      if acc.isEmpty then splitWhiteAux rest []
      else acc.reverse :: splitWhiteAux rest []
    else splitWhiteAux rest (c :: acc)

/-- `trim().split(/\s+/)`: whitespace-delimited tokens, empties dropped. -/
def splitWhite (cs : List Char) : List (List Char) := splitWhiteAux cs []

def strStarts (pre s : String) : Bool := pre.toList.isPrefixOf s.toList

def strEnds (s suf : String) : Bool := suf.toList.reverse.isPrefixOf s.toList.reverse

def strToLowerStr (s : String) : String := String.mk (s.toList.map Char.toLower)

def strToUpperStr (s : String) : String := String.mk (s.toList.map Char.toUpper)

def natOfDigits (ds : List Char) : Nat := ds.foldl (fun n c => n * 10 + (c.toNat - 48)) 0

/-- JavaScript truthiness of a possibly-absent string: `undefined`, `null`
and the empty string are falsy, every other string is truthy. -/
def jsTruthyOptStr : Option String → Bool
  | some s => !(s == "")
  | none => false

/-- `parseInt(s, 10)`: the leading decimal digits, `none` for `NaN`. -/
def jsParseInt (s : String) : Option Nat :=
  let ds := s.toList.takeWhile Char.isDigit
  if ds.isEmpty then none else some (natOfDigits ds)

/-- `NaN === n` is always false, so a `NaN` comparison result is modelled by
`none` never being equal to a number. -/
def jsNatEq (w : Nat) : Option Nat → Bool
  | some k => w == k
  | none => false

/-! ## CSPAnalyzer (`validateCspPolicyString`) -/

/-- Modelled from the spec: `CSP_KEYWORD_RE` (defined in the external
`const` module) recognizes the safe CSP keyword tokens — the
self/none/strict-dynamic keywords plus nonce- and hash-source forms. -/
def isSecureCspValue (value : String) : Bool :=
  value == "'self'" || value == "'none'" || value == "'strict-dynamic'" ||
  strStarts "'nonce-" value || strStarts "'sha256-" value ||
  strStarts "'sha384-" value || strStarts "'sha512-" value

/-- JavaScript-object style upsert used while building the directive map:
an existing directive name is overwritten in place, a new one is appended. -/
def cspDirUpsert (m : List (String × List String)) (k : String) (v : List String) :
    List (String × List String) :=
  if m.any (fun p => p.1 == k) then m.map (fun p => if p.1 == k then (k, v) else p)
  else m ++ [(k, v)]

/-- Modelled from the spec: `parseCspPolicy` (defined in the external
`utils` module) parses one policy string into a map from directive name to
ordered token sequence — directives are separated by `;`, tokens are
whitespace-delimited, and directive names are case-insensitive (lowered). -/
def parseCspPolicy (policy : String) : List (String × List String) :=
  (splitOnSep ';' policy.toList).foldl
    (fun acc part =>
      match splitWhite part with
      | [] => acc
      | name :: values =>
        cspDirUpsert acc (String.mk (name.map Char.toLower)) (values.map String.mk))
    []

/-- The three mutable flags of the `validateCspPolicyString` loop. -/
structure CspFlags where
  insecureSrc : Bool
  warnCsp : Bool
  warnEval : Bool
deriving DecidableEq, Repr

/-- The body of the inner `for (const value of values)` loop. -/
def scanValue (candidate : String) (st : CspFlags) (v : String) : CspFlags :=
  if v == "'unsafe-eval'" then { st with warnEval := true }
  else if !(isSecureCspValue v) then
    { st with
      warnCsp := true
      insecureSrc := (candidate == "default-src") || st.insecureSrc }
  else st

/-- One iteration of the `for (let i = 0; i < candidates.length; ...)` loop:
skip an absent directive; an all-safe `script-src` clears an insecure source
directive; otherwise scan the directive's tokens. -/
def cspStep (dirs : List (String × List String)) (st : CspFlags) (candidate : String) :
    CspFlags :=
  match dirs.lookup candidate with
  | none => st
  | some values =>
    if st.insecureSrc && candidate == "script-src" && values.all isSecureCspValue then
      { st with insecureSrc := false, warnCsp := false }
    else values.foldl (scanValue candidate) st

/-- The checked directives, in the order the source iterates them. -/
def cspCandidates : List String :=
  ["default-src", "script-src", "script-src-elem", "script-src-attr", "worker-src"]

/-- Runs the candidate loop of `validateCspPolicyString` on a parsed
directive map; the initial flags encode that a missing `default-src` is
insecure. -/
def runCspChecks (dirs : List (String × List String)) : CspFlags :=
  cspCandidates.foldl (cspStep dirs)
    { insecureSrc := (dirs.lookup "default-src").isNone
      warnCsp := (dirs.lookup "default-src").isNone
      warnEval := false }

/-- Modelled from the spec: the eval-specific CSP warning of the external
`messages` catalogue. -/
def manifestCspUnsafeEval (propName : String) : Msg :=
  { code := "MANIFEST_CSP_UNSAFE_EVAL"
    text := "Using unsafe-eval has strong security implications, in " ++ propName
    description := none }

/-- Modelled from the spec: the generic insecure-CSP warning of the external
`messages` catalogue. -/
def manifestCsp (propName : String) : Msg :=
  { code := "MANIFEST_CSP"
    text := "An insecure content_security_policy was found, in " ++ propName
    description := none }

/-- `validateCspPolicyString(policy, manifestPropName)`: parses the policy,
runs the directive checks and emits the eval warning and/or the generic
insecure-CSP warning.  CSP validation never flips `isValid`. -/
def validateCspPolicyString (policy manifestPropName : String) : List Diag :=
  let flags := runCspChecks (parseCspPolicy policy)
  (if flags.warnEval then [Diag.mk .warning (manifestCspUnsafeEval manifestPropName)] else [])
    ++ (if flags.warnCsp then [Diag.mk .warning (manifestCsp manifestPropName)] else [])

/-- A token that is neither the `'unsafe-eval'` token (which only raises the
eval flag) nor a recognized safe keyword; exactly these tokens set the
insecure-CSP flag during a scan. -/
def badToken (v : String) : Bool := !(v == "'unsafe-eval'") && !(isSecureCspValue v)

/-- A checked directive that is present and contains a token setting the
insecure-CSP flag. -/
def dirHasBad (dirs : List (String × List String)) (c : String) : Bool :=
  match dirs.lookup c with
  | some vs => vs.any badToken
  | none => false

/-- A checked directive that is present and contains the `'unsafe-eval'`
token. -/
def dirHasEval (dirs : List (String × List String)) (c : String) : Bool :=
  match dirs.lookup c with
  | some vs => vs.any (fun v => v == "'unsafe-eval'")
  | none => false

/-- A `script-src` directive is present and every one of its tokens is a
recognized safe keyword (the overriding condition of the source). -/
def scriptSrcMakesSecure (dirs : List (String × List String)) : Bool :=
  match dirs.lookup "script-src" with
  | some vs => vs.all isSecureCspValue
  | none => false

/-- The source directive is insecure: `default-src` is missing entirely, or
it contains a non-safe non-eval token. -/
def defaultSrcInsecure (dirs : List (String × List String)) : Bool :=
  match dirs.lookup "default-src" with
  | some vs => vs.any badToken
  | none => true

/-- A bad token in one of the three directives checked after `script-src`. -/
def cspTailBad (dirs : List (String × List String)) : Bool :=
  dirHasBad dirs "script-src-elem" || dirHasBad dirs "script-src-attr" ||
    dirHasBad dirs "worker-src"

/-! ## Manifest document model -/

/-- The `applications.gecko` / `browser_specific_settings.gecko` block. -/
structure GeckoInfo where
  id : Option String
  strict_min_version : Option String
  strict_max_version : Option String
  update_url : Option String
deriving DecidableEq, Repr

structure AppsInfo where
  gecko : Option GeckoInfo
deriving DecidableEq, Repr

/-- `content_security_policy` is either one policy string (manifest v2) or a
per-context map of policy strings (manifest v3). -/
inductive CspValue where
  | str (s : String)
  | perContext (entries : List (String × String))
deriving DecidableEq, Repr

/-- A `default_icon` is either a single path or a size-keyed map of paths. -/
inductive DefaultIcon where
  | single (path : String)
  | sized (entries : List (String × String))
deriving DecidableEq, Repr

/-- One entry of `browser_action.theme_icons`. -/
structure ThemeIcon where
  size : Option String
  dark : Option String
  light : Option String
deriving DecidableEq, Repr

/-- An action block (`browser_action`, `page_action`, `sidebar_action`). -/
structure ActionInfo where
  default_icon : Option DefaultIcon
  theme_icons : Option (List ThemeIcon)
deriving DecidableEq, Repr

/-- The `parent` / `child` block of one experiment API: its `paths` value is
an array of API-path arrays. -/
structure ExperimentEndpoint where
  paths : Option (List (List String))
deriving DecidableEq, Repr

structure ExperimentApi where
  parent : Option ExperimentEndpoint
  child : Option ExperimentEndpoint
deriving DecidableEq, Repr

structure DeveloperInfo where
  name : Option String
  url : Option String
deriving DecidableEq, Repr

/-- The parsed manifest document (`this.parsedJSON`), restricted to the keys
read by the embedded rules.  `hasTheme` models presence of the `theme` key
(only presence is tested by the kind detection); JSON maps are association
lists in declaration order. -/
structure ManifestDoc where
  manifest_version : Option Int
  name : Option String
  version : Option String
  hasTheme : Bool
  langpack_id : Option String
  dictionaries : Option (List (String × String))
  site_permissions : Option (List String)
  applications : Option AppsInfo
  browser_specific_settings : Option AppsInfo
  content_security_policy : Option CspValue
  update_url : Option String
  granted_host_permissions : Bool
  permissions : Option (List String)
  default_locale : Option String
  icons : Option (List (String × String))
  browser_action : Option ActionInfo
  page_action : Option ActionInfo
  sidebar_action : Option ActionInfo
  experiment_apis : Option (List (String × ExperimentApi))
  developer : Option DeveloperInfo
  author : Option String
  homepage_url : Option String
deriving DecidableEq, Repr

/-- Modelled from the spec: the `PACKAGE_EXTENSION` type tag of the external
`const` module. -/
def PACKAGE_EXTENSION : String := "extension"

/-- The default document substituted by the constructor when JSON parsing
fails: `manifest_version`, `name` and `version` are null and the type is the
fixed extension tag. -/
def defaultManifest : ManifestDoc :=
  { manifest_version := none
    name := none
    version := none
    hasTheme := false
    langpack_id := none
    dictionaries := none
    site_permissions := none
    applications := none
    browser_specific_settings := none
    content_security_policy := none
    update_url := none
    granted_host_permissions := false
    permissions := none
    default_locale := none
    icons := none
    browser_action := none
    page_action := none
    sidebar_action := none
    experiment_apis := none
    developer := none
    author := none
    homepage_url := none }

inductive AddonKind where
  | extensionKind
  | staticTheme
  | languagePack
  | dictionary
  | sitePermission
deriving DecidableEq, Repr

/-- The constructor's addon-type detection: fixed-priority presence test
`theme` > `langpack_id` > `dictionaries` > `site_permissions`. -/
def detectKind (m : ManifestDoc) : AddonKind :=
  if m.hasTheme then .staticTheme
  else if m.langpack_id.isSome then .languagePack
  else if m.dictionaries.isSome then .dictionary
  else if m.site_permissions.isSome then .sitePermission
  else .extensionKind

/-- Lines 482-487: when `browser_specific_settings.gecko` is present, copy
the whole `browser_specific_settings` block into the legacy `applications`
slot so that downstream rules see one shape. -/
def applyBrowserSpecificSettings (m : ManifestDoc) : ManifestDoc :=
  match m.browser_specific_settings with
  | some bss => if bss.gecko.isSome then { m with applications := some bss } else m
  | none => m

/-- Lines 714-724: promote `developer.name` / `developer.url` into the
legacy `author` / `homepage_url` slots (truthy values only). -/
def promoteDeveloperInfo (m : ManifestDoc) : ManifestDoc :=
  match m.developer with
  | some dev =>
    let m1 := if jsTruthyOptStr dev.name then { m with author := dev.name } else m
    if jsTruthyOptStr dev.url then { m1 with homepage_url := dev.url } else m1
  | none => m

/-- `getAddonId`: `this.parsedJSON.applications.gecko.id`, with the
`try/catch` (absent `applications` or `gecko`) and the undefined check both
returning null. -/
def getAddonId (m : ManifestDoc) : Option String :=
  match m.applications with
  | some apps =>
    match apps.gecko with
    | some gecko => gecko.id
    | none => none
  | none => none

/-- The `applications && applications.gecko && gecko.strict_min_version`
chain used by `getMetadata`. -/
def geckoStrictMinVersion (m : ManifestDoc) : Option String :=
  (m.applications.bind (fun a => a.gecko)).bind (fun g => g.strict_min_version)

/-- The `applications && applications.gecko && gecko.strict_max_version`
chain of the strict_max_version rule. -/
def geckoStrictMaxVersion (m : ManifestDoc) : Option String :=
  (m.applications.bind (fun a => a.gecko)).bind (fun g => g.strict_max_version)

/-! ## getExperimentApiPaths / getMetadata -/

/-- `Set.prototype.add`: append unless already present. -/
def addToSet (s : List String) (x : String) : List String :=
  if s.contains x then s else s ++ [x]

/-- `p.join('.')`. -/
def joinDot (p : List String) : String := String.intercalate "." p

/-- `(parent?.paths ?? []) ++ (child?.paths ?? [])` for one experiment
API. -/
def experimentEndpointPaths (api : ExperimentApi) : List (List String) :=
  (match api.parent with
   | some ep => ep.paths.getD []
   | none => []) ++
  (match api.child with
   | some ep => ep.paths.getD []
   | none => [])

/-- The per-API body of the `getExperimentApiPaths` loop: keep the non-empty
path arrays (the `Array.isArray` part of the filter is enforced by typing)
and add their dot-joins to the set. -/
def addApiPaths (acc : List String) (kv : String × ExperimentApi) : List String :=
  ((experimentEndpointPaths kv.2).filter (fun p => !p.isEmpty)).foldl
    (fun a p => addToSet a (joinDot p)) acc

/-- `getExperimentApiPaths`: the set of dot-joined API paths of every
declared experiment API, in first-insertion order. -/
def getExperimentApiPaths (m : ManifestDoc) : List String :=
  match m.experiment_apis with
  | none => []
  | some apis => apis.foldl addApiPaths []

structure Metadata where
  id : Option String
  manifestVersion : Option Int
  name : Option String
  addonType : String
  version : Option String
  firefoxMinVersion : Option String
  experimentApiPaths : List String
deriving DecidableEq, Repr

/-- `getMetadata`. -/
def getMetadata (m : ManifestDoc) : Metadata :=
  { id := getAddonId m
    manifestVersion := m.manifest_version
    name := m.name
    addonType := PACKAGE_EXTENSION
    version := m.version
    firefoxMinVersion := geckoStrictMinVersion m
    experimentApiPaths := getExperimentApiPaths m }

/-! ## ErrorClassifier (`errorLookup`) -/

/-- The JSON value attached to a raw schema issue, as far as the classifier
observes it: a string, or some other defined value (carried as its string
rendering for message interpolation). -/
inductive ErrData where
  | str (s : String)
  | nonStr (render : String)
deriving DecidableEq, Repr

/-- One raw schema-validator finding (`error` in the source):
`params.privilegedPermissions` is `none` when the `params` object carries no
such property. -/
structure SchemaError where
  keyword : String
  instancePath : String
  message : String
  data : Option ErrData
  privilegedPermissions : Option (List String)
deriving DecidableEq, Repr

/-- Modelled from the spec: the message objects of the external `messages`
catalogue that `errorLookup` selects from; codes are the upstream message
names. -/
def JSON_INVALID : Msg :=
  { code := "JSON_INVALID", text := "Your JSON is not valid.", description := none }

def MANIFEST_FIELD_REQUIRED : Msg :=
  { code := "MANIFEST_FIELD_REQUIRED", text := "The field is required.", description := none }

def MANIFEST_FIELD_DEPRECATED : Msg :=
  { code := "MANIFEST_FIELD_DEPRECATED", text := "The field is deprecated.", description := none }

def MANIFEST_FIELD_INVALID : Msg :=
  { code := "MANIFEST_FIELD_INVALID", text := "The field is invalid.", description := none }

def APPLICATIONS_INVALID : Msg :=
  { code := "APPLICATIONS_INVALID"
    text := "The applications property is no longer accepted in manifest versions 3 and above."
    description := none }

def MANIFEST_BAD_PERMISSION : Msg :=
  { code := "MANIFEST_BAD_PERMISSION", text := "The permission is invalid.", description := none }

def MANIFEST_BAD_OPTIONAL_PERMISSION : Msg :=
  { code := "MANIFEST_BAD_OPTIONAL_PERMISSION"
    text := "The optional permission is invalid."
    description := none }

def MANIFEST_BAD_HOST_PERMISSION : Msg :=
  { code := "MANIFEST_BAD_HOST_PERMISSION"
    text := "The host permission is invalid."
    description := none }

/-- Modelled from the spec: `manifestPermissionUnsupported(data, error)` —
permission not supported for the add-on's manifest version. -/
def manifestPermissionUnsupported (dataRender : String) : Msg :=
  { code := "MANIFEST_PERMISSION_UNSUPPORTED"
    text := "The permission is not supported by the manifest version: " ++ dataRender
    description := none }

/-- Modelled from the spec: `manifestFieldUnsupported(instancePath, error)` —
field not supported for the add-on's manifest version. -/
def manifestFieldUnsupported (fieldPath : String) : Msg :=
  { code := "MANIFEST_FIELD_UNSUPPORTED"
    text := "The field is not supported by the manifest version: " ++ fieldPath
    description := none }

/-- Modelled from the spec: privileged add-on with privileged permissions
listed — the mozillaAddons permission is required. -/
def mozillaAddonsPermissionRequired : Msg :=
  { code := "MOZILLA_ADDONS_PERMISSION_REQUIRED"
    text := "The mozillaAddons permission is required."
    description := none }

/-- Modelled from the spec: privileged add-on with no privileged permission
listed. -/
def privilegedFeaturesRequired : Msg :=
  { code := "PRIVILEGED_FEATURES_REQUIRED"
    text := "A privileged feature requires privileged permissions."
    description := none }

/-- Modelled from the spec: non-privileged add-on requesting privileged
permissions. -/
def manifestPermissionsPrivileged : Msg :=
  { code := "MANIFEST_PERMISSIONS_PRIVILEGED"
    text := "A permission requires a privileged add-on."
    description := none }

/-- Modelled from the spec: non-privileged add-on using a privileged
field. -/
def manifestFieldPrivileged : Msg :=
  { code := "MANIFEST_FIELD_PRIVILEGED"
    text := "A field requires a privileged add-on."
    description := none }

/-- Modelled from the spec: `DEPRECATED_MANIFEST_PROPERTIES` (in the
external `const` module) maps instance paths of deprecated properties to
their replacement message templates; a registered path can map to null, in
which case the generic deprecated message is used.  Two representative
entries stand for the external table. -/
def DEPRECATED_MANIFEST_PROPERTIES : List (String × Option Msg) :=
  [("/browser_action",
    some { code := "MANIFEST_FIELD_DEPRECATED"
           text := "browser_action is deprecated in Manifest Version 3."
           description := some "Use the action key instead." }),
   ("/options_ui/browser_style", none)]

/-- The field+index matcher behind the datapath regular expressions: the
path must start with `/<field>/` followed by at least one decimal digit;
the captures are the field name and the digit run. -/
def matchFieldIndex (fields : List String) (path : String) : Option (String × String) :=
  fields.findSome? (fun f =>
    let pre := "/" ++ f ++ "/"
    if strStarts pre path then
      let ds := (path.toList.drop pre.length).takeWhile Char.isDigit
      if ds.isEmpty then none else some (f, String.mk ds)
    else none)

/-- Modelled from the spec: `PERMS_DATAPATH_REGEX` — an array-element path
under one of the three permissions arrays. -/
def permsPathMatch (path : String) : Option (String × String) :=
  matchFieldIndex ["permissions", "optional_permissions", "host_permissions"] path

/-- Modelled from the spec: `INSTALL_ORIGINS_DATAPATH_REGEX` — an
array-element path under `install_origins`. -/
def installOriginsPathMatch (path : String) : Option (String × String) :=
  matchFieldIndex ["install_origins"] path

/-- Modelled from the spec: `messages[MANIFEST_<field upper-cased>]`, the
override template used for permissions / install_origins array elements. -/
def manifestFieldOverrideMsg (field : String) : Msg :=
  { code := "MANIFEST_" ++ strToUpperStr field
    text := "Invalid " ++ field
    description := none }

/-- The classification part of `errorLookup` (everything before the final
manifest-version-2 suppression): selects a base message object by the issue
keyword / path, applies the message and description overrides, and applies
the array-element refinement.  The merged result is returned; the source
also spreads `instancePath` into the result, which carries no extra
information beyond the error itself and is not modelled. -/
def classifySchemaError (isPrivilegedAddon : Bool) (err : SchemaError) : Msg :=
  let msg0 :=
    if strToLowerStr err.message == "must match a schema in anyof" then
      "is not a valid key or has invalid extra properties"
    else err.message
  let defaultText :=
    "\"" ++ (if err.instancePath == "" then "/" else err.instancePath) ++ "\" " ++ msg0
  let dataIsNonString : Bool :=
    match err.data with
    | some (ErrData.nonStr _) => true
    | _ => false
  let dataRender : String :=
    match err.data with
    | none => "undefined"
    | some (ErrData.str s) => s
    | some (ErrData.nonStr r) => r
  let triple : Msg × String × Option String :=
    if err.keyword == "required" then
      (MANIFEST_FIELD_REQUIRED, defaultText, none)
    else if err.keyword == "deprecated" then
      match DEPRECATED_MANIFEST_PROPERTIES.lookup err.instancePath with
      | some entry =>
        let base :=
          match entry with
          | some b => b
          | none => MANIFEST_FIELD_DEPRECATED
        let descr :=
          match base.description with
          | some d => some d
          | none => some msg0
        (base, base.text, descr)
      | none => (JSON_INVALID, defaultText, none)
    else if err.keyword == "min_manifest_version" || err.keyword == "max_manifest_version" then
      let base :=
        if (permsPathMatch err.instancePath).isSome then
          manifestPermissionUnsupported dataRender
        else if err.instancePath == "/applications" then APPLICATIONS_INVALID
        else manifestFieldUnsupported err.instancePath
      (base, base.text, base.description)
    else if strStarts "/permissions" err.instancePath &&
        err.keyword == "validatePrivilegedPermissions" &&
        err.privilegedPermissions.isSome then
      let base :=
        if isPrivilegedAddon then
          match err.privilegedPermissions with
          | some l => if l.isEmpty then privilegedFeaturesRequired
                      else mozillaAddonsPermissionRequired
          | none => mozillaAddonsPermissionRequired
        else manifestPermissionsPrivileged
      (base, base.text, base.description)
    else if strStarts "/permissions" err.instancePath && dataIsNonString then
      (MANIFEST_BAD_PERMISSION, "Permissions " ++ msg0 ++ ".", none)
    else if strStarts "/optional_permissions" err.instancePath && dataIsNonString then
      (MANIFEST_BAD_OPTIONAL_PERMISSION, "Permissions " ++ msg0 ++ ".", none)
    else if strStarts "/host_permissions" err.instancePath && dataIsNonString then
      (MANIFEST_BAD_HOST_PERMISSION, "Permissions " ++ msg0 ++ ".", none)
    else if err.keyword == "type" then
      (MANIFEST_FIELD_INVALID, defaultText, none)
    else if err.keyword == "privileged" then
      let base :=
        if isPrivilegedAddon then mozillaAddonsPermissionRequired else manifestFieldPrivileged
      (base, base.text, base.description)
    else (JSON_INVALID, defaultText, none)
  let matched :=
    match permsPathMatch err.instancePath with
    | some fi => some fi
    | none => installOriginsPathMatch err.instancePath
  let refined : Msg × String × Option String :=
    match matched with
    | some fi =>
      if !(triple.1.code == "MANIFEST_BAD_PERMISSION") &&
          !(triple.1.code == "MANIFEST_BAD_OPTIONAL_PERMISSION") &&
          !(triple.1.code == "MANIFEST_BAD_HOST_PERMISSION") &&
          !(triple.1.code == "MANIFEST_PERMISSION_UNSUPPORTED") then
        (manifestFieldOverrideMsg fi.1,
         "/" ++ fi.1 ++ ": Invalid " ++ fi.1 ++ " \"" ++ dataRender ++ "\" at " ++ fi.2 ++ ".",
         triple.2.2)
      else triple
    | none => triple
  { code := refined.1.code
    text := refined.2.1
    description :=
      match refined.2.2 with
      | some d => some d
      | none => refined.1.description }

/-- The two codes never reported on manifest version 2 extensions. -/
def ignoredOnMV2 : List String :=
  ["MANIFEST_HOST_PERMISSIONS", "MANIFEST_BAD_HOST_PERMISSION"]

/-- `errorLookup`: classify the raw issue, then drop it entirely when the
manifest version is 2 and the classified code is one of the two suppressed
host-permission codes. -/
def errorLookup (manifestVersion : Option Int) (isPrivilegedAddon : Bool)
    (err : SchemaError) : Option Msg :=
  let message := classifySchemaError isPrivilegedAddon err
  if manifestVersion == some 2 && ignoredOnMV2.contains message.code then none
  else some message

/-- The codes routed to `addWarning` instead of `addError` by the schema
loop of `_validate`.  The source additionally pushes the two privileged
message objects (not their codes) into this array when the add-on is already
signed; since `warnings.includes(message.code)` compares a code string
against those objects under JavaScript strict equality, the pushed entries
can never match and are omitted from the embedding. -/
def schemaWarningCodes : List String :=
  ["MANIFEST_PERMISSIONS", "MANIFEST_OPTIONAL_PERMISSIONS", "MANIFEST_HOST_PERMISSIONS",
   "MANIFEST_PERMISSION_UNSUPPORTED", "MANIFEST_FIELD_UNSUPPORTED"]

/-- One iteration of the `validate.errors.forEach` loop of `_validate`:
the diagnostics appended for this raw issue and whether the iteration set
`this.isValid = false` (only the bad-permission code does). -/
def processSchemaError (manifestVersion : Option Int) (isPrivilegedAddon : Bool)
    (err : SchemaError) : List Diag × Bool :=
  match errorLookup manifestVersion isPrivilegedAddon err with
  | none => ([], false)
  | some message =>
    let d :=
      if schemaWarningCodes.contains message.code then Diag.mk .warning message
      else Diag.mk .error message
    ([d], message.code == "MANIFEST_BAD_PERMISSION")

/-- The whole schema-error loop. -/
def processSchemaErrors (manifestVersion : Option Int) (isPrivilegedAddon : Bool)
    (errs : List SchemaError) : List Diag × Bool :=
  errs.foldl
    (fun acc e =>
      ((acc.1 ++ (processSchemaError manifestVersion isPrivilegedAddon e).1),
       (acc.2 || (processSchemaError manifestVersion isPrivilegedAddon e).2)))
    ([], false)

/-! ## File-existence helper and the dictionaries rule -/

/-- Modelled from the spec: `normalizePath` (in the external `utils`
module) — the package listing is a set of already-normalized paths, so
normalization is the identity on the paths considered here. -/
def normalizePath (p : String) : String := p

/-- Modelled from the spec: `manifestDictionaryFileMissing(path, type)`. -/
def manifestDictionaryFileMissing (path fileType : String) : Msg :=
  { code := "MANIFEST_DICT_NOT_FOUND"
    text := "A dictionary file could not be found at " ++ path
    description := some ("file type " ++ fileType) }

/-- Modelled from the spec: the dictionary cardinality / identity errors of
the external `messages` catalogue. -/
def MANIFEST_DICT_MISSING_ID : Msg :=
  { code := "MANIFEST_DICT_MISSING_ID"
    text := "The manifest contains dictionaries but no id property."
    description := none }

def MANIFEST_EMPTY_DICTS : Msg :=
  { code := "MANIFEST_EMPTY_DICTS"
    text := "The manifest contains a dictionaries object, but it is empty."
    description := none }

def MANIFEST_MULTIPLE_DICTS : Msg :=
  { code := "MANIFEST_MULTIPLE_DICTS"
    text := "The manifest contains multiple dictionaries."
    description := none }

/-- `validateFileExistsInPackage(filePath, type, messageFunc)`: the appended
diagnostics, the `isValid = false` assignment, and the returned existence
boolean. -/
def validateFileExistsInPackage (files : List String) (filePath fileType : String)
    (messageFunc : String → String → Msg) : (List Diag × Bool) × Bool :=
  let p := normalizePath filePath
  if files.contains p then (([], false), true)
  else (([Diag.mk .error (messageFunc p fileType)], true), false)

/-- `filepath.replace(/\.dic$/, '.aff')`. -/
def replaceDicWithAff (p : String) : String :=
  if strEnds p ".dic" then String.mk (p.toList.take (p.toList.length - 4)) ++ ".aff"
  else p

/-- The per-entry body of the dictionaries file loop: check the declared
`.dic` path and its derived `.aff` sibling. -/
def dictFileChecks (files : List String) (kv : String × String) : List Diag × Bool :=
  let r1 := validateFileExistsInPackage files kv.2 "binary" manifestDictionaryFileMissing
  let r2 := validateFileExistsInPackage files (replaceDicWithAff kv.2) "binary"
    manifestDictionaryFileMissing
  (r1.1.1 ++ r2.1.1, r1.1.2 || r2.1.2)

/-- Lines 567-596 of `_validate`: the dictionaries rule.  The dictionaries
map is an association list with distinct keys (JavaScript object), so
`Object.keys(...).length` is its length. -/
def validateDictionaries (m : ManifestDoc) (files : List String) : List Diag × Bool :=
  match m.dictionaries with
  | none => ([], false)
  | some dicts =>
    let s1 : List Diag × Bool :=
      if (getAddonId m).isNone then ([Diag.mk .error MANIFEST_DICT_MISSING_ID], true)
      else ([], false)
    let numberOfDictionaries := dicts.length
    let s2 : List Diag × Bool :=
      if numberOfDictionaries < 1 then ([Diag.mk .error MANIFEST_EMPTY_DICTS], true)
      else if numberOfDictionaries > 1 then ([Diag.mk .error MANIFEST_MULTIPLE_DICTS], true)
      else ([], false)
    let s3 : List Diag × Bool :=
      dicts.foldl
        (fun acc kv =>
          (acc.1 ++ (dictFileChecks files kv).1, acc.2 || (dictFileChecks files kv).2))
        ([], false)
    (s1.1 ++ s2.1 ++ s3.1, s1.2 || s2.2 || s3.2)

/-! ## Locale rules -/

/-- Modelled from the spec: the locale messages of the external `messages`
catalogue. -/
def NO_MESSAGES_FILE : Msg :=
  { code := "NO_MESSAGES_FILE"
    text := "The default locale is missing its messages.json file."
    description := none }

def NO_DEFAULT_LOCALE : Msg :=
  { code := "NO_DEFAULT_LOCALE"
    text := "A localized package must declare default_locale."
    description := none }

def noMessagesFileInLocales (path : String) : Msg :=
  { code := "NO_MESSAGES_FILE_IN_LOCALES"
    text := "Empty language directory " ++ path
    description := none }

/-- `^_locales/(.*?)/`: the first path segment after `_locales/`, when the
remainder contains another slash (the lazy group captures up to the first
following slash). -/
def localeOfPath (p : String) : Option String :=
  if strStarts "_locales/" p then
    let rest := p.toList.drop 9
    if rest.contains '/' then some (String.mk (rest.takeWhile (fun c => !(c == '/'))))
    else none
  else none

/-- `^_locales/.*?/messages\.json$`: the path lies under `_locales/` and
ends with `/messages.json`. -/
def hasLocaleMessagesFile (p : String) : Bool :=
  strStarts "_locales/" p && strEnds (String.mk (p.toList.drop 9)) "/messages.json"

/-- One iteration of the file loop of lines 676-686: record the matched
locale once in the distinct-locale list, and (without deduplication) in the
with-messages list when the file is its `messages.json`. -/
def collectLocalesStep (acc : List String × List String) (f : String) :
    List String × List String :=
  match localeOfPath f with
  | some loc =>
    (if acc.1.contains loc then acc.1 else acc.1 ++ [loc],
     if hasLocaleMessagesFile f then acc.2 ++ [loc] else acc.2)
  | none => acc

/-- Lines 676-686: collect the distinct locales (in first-appearance order)
and the locales that have a `messages.json`. -/
def collectLocales (files : List String) : List String × List String :=
  files.foldl collectLocalesStep ([], [])

/-- Lines 648-661: when a default locale is declared, its own
`_locales/<locale>/messages.json` must be present in the package. -/
def defaultLocaleMessagesRule (m : ManifestDoc) (files : List String) : List Diag × Bool :=
  match m.default_locale with
  | some dl =>
    if dl == "" then ([], false)
    else if files.contains ("_locales/" ++ dl ++ "/messages.json") then ([], false)
    else ([Diag.mk .error NO_MESSAGES_FILE], true)
  | none => ([], false)

/-- Lines 663-712: the locale-consistency rule (the source guards the whole
block behind `this?.io?.files`; a file-listing is always supplied here). -/
def localesRule (m : ManifestDoc) (files : List String) : List Diag × Bool :=
  let collected := collectLocales files
  let errs :=
    (collected.1.filter (fun l => !(collected.2.contains l))).map
      (fun l => noMessagesFileInLocales ("_locales/" ++ l))
  if !(jsTruthyOptStr m.default_locale) then
    if !collected.2.isEmpty then ([Diag.mk .error NO_DEFAULT_LOCALE], true)
    else ([], false)
  else if !errs.isEmpty then (errs.map (Diag.mk .error), true)
  else ([], false)

/-! ## AssetValidator: icons -/

/-- Modelled from the spec: `IMAGE_FILE_EXTENSIONS` (external `const`
module) — the allowed image extensions; `svg` is the vector format and
`webp` is additionally excluded for theme images. -/
def IMAGE_FILE_EXTENSIONS : List String := ["jpg", "jpeg", "webp", "gif", "png", "svg"]

/-- The chunk after the last dot of a character list, `none` when the list
contains no dot. -/
def afterLastDot (cs : List Char) : Option (List Char) :=
  match splitOnSep '.' cs with
  | [] => none
  | [_] => none
  | parts => parts.getLast?

/-- `path.extname(_path).substring(1).toLowerCase()`: the lower-cased
extension of the final path segment; a leading dot of the segment (hidden
file) does not start an extension. -/
def getNormalizedExtension (p : String) : String :=
  let base := ((splitOnSep '/' p.toList).getLastD [])
  let core :=
    match base with
    | '.' :: rest => rest
    | other => other
  match afterLastDot core with
  | some e => String.mk (e.map Char.toLower)
  | none => ""

/-- Modelled from the spec: the icon messages of the external `messages`
catalogue.  `WRONG_ICON_EXTENSION` is a constant message carrying no
path. -/
def manifestIconMissing (path : String) : Msg :=
  { code := "MANIFEST_ICON_MISSING"
    text := "An icon defined in the manifest could not be found at " ++ path
    description := none }

def WRONG_ICON_EXTENSION : Msg :=
  { code := "WRONG_ICON_EXTENSION"
    text := "Icons should be one of the allowed image file types."
    description := none }

def iconIsNotSquare (path : String) : Msg :=
  { code := "ICON_NOT_SQUARE"
    text := "Icon is not square: " ++ path
    description := none }

def iconSizeInvalid (path : String) (expected : Option Nat) (actual : Nat) : Msg :=
  { code := "ICON_SIZE_INVALID"
    text := "Icon size is invalid at " ++ path
    description :=
      some ("expected " ++
        (match expected with
         | some e => toString e
         | none => "NaN") ++ " but found " ++ toString actual) }

def corruptIconFile (path : String) : Msg :=
  { code := "CORRUPT_ICON_FILE"
    text := "Icon could not be decoded at " ++ path
    description := none }

/-- The decoded image metadata (external image decoder boundary): width,
height and the mime looked up from the decoded type (`none` when the lookup
table has no entry). -/
structure ImageInfo where
  width : Nat
  height : Nat
  mime : Option String
deriving DecidableEq, Repr

/-- `validateIcon(iconPath, expectedSize)` given the outcome of the decode:
a decode exception degrades to a corrupt-file warning; a non-square icon is
an error (and invalidates) unless the mime is `image/svg+xml`, in which case
it is only a warning; a square non-svg icon whose actual size differs from
the declared size key yields a size warning (`NaN !== n` holds, so an
unparseable declared size also warns). -/
def validateIcon (iconPath : String) (expectedSize : Option String)
    (decoded : Except Unit ImageInfo) : List Diag × Bool :=
  match decoded with
  | .error _ => ([Diag.mk .warning (corruptIconFile iconPath)], false)
  | .ok info =>
    if info.width ≠ info.height then
      if info.mime ≠ some "image/svg+xml" then
        ([Diag.mk .error (iconIsNotSquare iconPath)], true)
      else ([Diag.mk .warning (iconIsNotSquare iconPath)], false)
    else
      match expectedSize with
      | some sz =>
        if info.mime ≠ some "image/svg+xml" && !(jsNatEq info.width (jsParseInt sz)) then
          ([Diag.mk .warning (iconSizeInvalid iconPath (jsParseInt sz) info.width)], false)
        else ([], false)
      | none => ([], false)

/-- The `(size, path)` pairs contributed by one action block's
`default_icon` (string form: a null size; map form: one pair per size
key). -/
def iconActionEntries (a : Option ActionInfo) : List (Option String × String) :=
  match a with
  | some act =>
    match act.default_icon with
    | some (DefaultIcon.single p) => [(none, p)]
    | some (DefaultIcon.sized entries) => entries.map (fun kv => (some kv.1, kv.2))
    | none => []
  | none => []

/-- The `(size, path)` pairs contributed by `browser_action.theme_icons`
(dark then light per entry, truthy paths only). -/
def themeIconEntries (m : ManifestDoc) : List (Option String × String) :=
  match m.browser_action with
  | some act =>
    (act.theme_icons.getD []).foldl
      (fun acc icon =>
        acc ++
          (match icon.dark with
           | some d => if d == "" then [] else [(icon.size, d)]
           | none => []) ++
          (match icon.light with
           | some l => if l == "" then [] else [(icon.size, l)]
           | none => []))
      []
  | none => []

/-- Lines 866-899 of `validateIcons`: the collected `(size, path)` pairs —
the top-level `icons` map, the three actions' `default_icon`, then
`browser_action.theme_icons`. -/
def collectIcons (m : ManifestDoc) : List (Option String × String) :=
  (m.icons.getD []).map (fun kv => (some kv.1, kv.2)) ++
    iconActionEntries m.browser_action ++
    iconActionEntries m.page_action ++
    iconActionEntries m.sidebar_action ++
    themeIconEntries m

/-- The loop state of the synchronous part of `validateIcons`:
`errorIcons` records the paths already reported missing, `pending` the
`validateIcon` calls whose promises are collected. -/
structure IconScanState where
  errorIcons : List String
  diags : List Diag
  invalid : Bool
  pending : List (String × Option String)
deriving DecidableEq, Repr

/-- Lines 901-920: one iteration of the icon loop.  A missing path is an
error once per path (tracked in `errorIcons`); a present path with a
disallowed extension warns (the `errorIcons` test is made but the path is
not recorded); otherwise the pair is queued for `validateIcon`. -/
def validateIconsStep (files : List String) (st : IconScanState)
    (entry : Option String × String) : IconScanState :=
  let p := normalizePath entry.2
  if !(files.contains p) then
    if !(st.errorIcons.contains p) then
      { errorIcons := st.errorIcons ++ [p]
        diags := st.diags ++ [Diag.mk .error (manifestIconMissing p)]
        invalid := true
        pending := st.pending }
    else st
  else if !(IMAGE_FILE_EXTENSIONS.contains (getNormalizedExtension p)) then
    if !(st.errorIcons.contains p) then
      { st with diags := st.diags ++ [Diag.mk .warning WRONG_ICON_EXTENSION] }
    else st
  else { st with pending := st.pending ++ [(p, entry.1)] }

/-- `validateIcons`: the synchronous scan over all collected icon
references. -/
def validateIcons (m : ManifestDoc) (files : List String) : IconScanState :=
  (collectIcons m).foldl (validateIconsStep files)
    { errorIcons := [], diags := [], invalid := false, pending := [] }

/-! ## Restricted permissions (`validateRestrictedPermissions`) -/

/-- One dot-separated part of a Mozilla version: its leading number and the
remaining characters. -/
def versionPartOf (cs : List Char) : Nat × List Char :=
  (natOfDigits (cs.takeWhile Char.isDigit), cs.dropWhile Char.isDigit)

/-- Plain lexicographic comparison of the non-numeric part suffixes. -/
def lexCmpChars : List Char → List Char → Int
  | [], [] => 0
  | [], _ :: _ => -1
  | _ :: _, [] => 1
  | a :: as, b :: bs =>
    if a.toNat < b.toNat then -1
    else if b.toNat < a.toNat then 1
    else lexCmpChars as bs

/-- Suffix comparison of version parts: a missing (empty) suffix compares
greater than any present suffix (`1pre < 1`), otherwise lexicographic. -/
def cmpSuffix (a b : List Char) : Int :=
  if a = b then 0
  else if a.isEmpty then 1
  else if b.isEmpty then -1
  else lexCmpChars a b

def cmpPart (a b : Nat × List Char) : Int :=
  if a.1 < b.1 then -1
  else if b.1 < a.1 then 1
  else cmpSuffix a.2 b.2

def padParts (n : Nat) (l : List (Nat × List Char)) : List (Nat × List Char) :=
  l ++ List.replicate (n - l.length) (0, [])

def cmpPartLists : List (Nat × List Char) → List (Nat × List Char) → Int
  | [], _ => 0
  | _, [] => 0
  | a :: as, b :: bs =>
    let c := cmpPart a b
    if c = 0 then cmpPartLists as bs else c

/-- Modelled from the spec: `mozCompare` from the external
`addons-moz-compare` package — the semantic (never lexicographic) Mozilla
version comparison: versions are split on dots, each part is compared
first by its leading number and then by its remaining suffix (empty suffix
greatest), missing parts count as zero. -/
def mozCompare (va vb : String) : Int :=
  let pa := (splitOnSep '.' va.toList).map versionPartOf
  let pb := (splitOnSep '.' vb.toList).map versionPartOf
  let n := max pa.length pb.length
  cmpPartLists (padParts n pa) (padParts n pb)

/-- Modelled from the spec: `makeRestrictedPermission(permission,
minVersion)` of the external `messages` catalogue. -/
def makeRestrictedPermission (permission minVersion : String) : Msg :=
  { code := "RESTRICTED_PERMISSION"
    text := "The use of permission " ++ permission
    description := some ("requires Firefox version " ++ minVersion) }

/-- Lines 784-816, `validateRestrictedPermissions`: the declared permissions
are lower-cased; a restricted permission found among them errors (and
invalidates) when the declared minimum version is falsy or compares
strictly below its required minimum.  `String(...)` of an absent minimum
version gives the truthy literal `"undefined"` (or `"null"`), modelled by
the string `"undefined"`. -/
def validateRestrictedPermissions (m : ManifestDoc)
    (restrictedPermissions : List (String × String)) : List Diag × Bool :=
  let permissions := m.permissions.getD []
  let permissionsInManifest := permissions.map strToLowerStr
  if permissionsInManifest.isEmpty then ([], false)
  else
    let minVersionSetInManifest :=
      match geckoStrictMinVersion m with
      | some s => s
      | none => "undefined"
    let hits := restrictedPermissions.filter (fun pv =>
      permissionsInManifest.contains pv.1 &&
        (minVersionSetInManifest == "" ||
          mozCompare minVersionSetInManifest pv.2 == -1))
    (hits.map (fun pv => Diag.mk .error (makeRestrictedPermission pv.1 pv.2)),
     !hits.isEmpty)

/-! ## Remaining structural rules and the composed validation pass -/

/-- Modelled from the spec: further constant messages of the external
`messages` catalogue used by the embedded rules. -/
def STRICT_MAX_VERSION : Msg :=
  { code := "STRICT_MAX_VERSION"
    text := "The manifest should not contain strict_max_version."
    description := none }

def MANIFEST_UNUSED_UPDATE : Msg :=
  { code := "MANIFEST_UNUSED_UPDATE"
    text := "The update_url property is not used by Firefox."
    description := none }

def MANIFEST_UPDATE_URL : Msg :=
  { code := "MANIFEST_UPDATE_URL"
    text := "The applications.gecko.update_url property is not allowed."
    description := none }

def IGNORED_APPLICATIONS_PROPERTY : Msg :=
  { code := "IGNORED_APPLICATIONS_PROPERTY"
    text := "The applications property is ignored when browser_specific_settings is present."
    description := none }

def APPLICATIONS_DEPRECATED : Msg :=
  { code := "APPLICATIONS_DEPRECATED"
    text := "The applications property is deprecated; use browser_specific_settings."
    description := none }

def EXTENSION_ID_REQUIRED : Msg :=
  { code := "EXTENSION_ID_REQUIRED"
    text := "An extension id is required for Manifest Version 3 and above."
    description := none }

def manifestFieldPrivilegedOnly (field : String) : Msg :=
  { code := "MANIFEST_FIELD_PRIVILEGED_ONLY"
    text := "The field is only allowed in privileged extensions: " ++ field
    description := none }

/-- `this.parsedJSON.manifest_version < 3` under JavaScript comparison
semantics: an absent value (`undefined`) compares as `NaN`, which is not
below 3 (the null default document never reaches `_validate`). -/
def jsMvBelowThree : Option Int → Bool
  | some v => v < 3
  | none => false

/-- `this.parsedJSON.manifest_version >= 3` under JavaScript comparison
semantics (absent gives `NaN >= 3`, false). -/
def jsMvAtLeastThree : Option Int → Bool
  | some v => 3 ≤ v
  | none => false

/-- Lines 471-480: the legacy `applications` warnings for manifest
version < 3. -/
def applicationsWarningsRule (m : ManifestDoc) : List Diag × Bool :=
  if jsMvBelowThree m.manifest_version then
    if m.browser_specific_settings.isSome && m.applications.isSome then
      ([Diag.mk .warning IGNORED_APPLICATIONS_PROPERTY], false)
    else if m.applications.isSome then ([Diag.mk .warning APPLICATIONS_DEPRECATED], false)
    else ([], false)
  else ([], false)

/-- Lines 1027-1039, `validateCspPolicy`: a string policy is validated once
under the `content_security_policy` property name, a per-context map once
per entry under a dotted property name.  CSP warnings never invalidate. -/
def validateCspPolicy (v : CspValue) : List Diag × Bool :=
  match v with
  | CspValue.str s => (validateCspPolicyString s "content_security_policy", false)
  | CspValue.perContext entries =>
    (entries.foldl
      (fun acc kv => acc ++ validateCspPolicyString kv.2 ("content_security_policy." ++ kv.1))
      [], false)

/-- Lines 598-613: the `applications.gecko.update_url` rule (error for
ordinary add-ons, warning for privileged ones, skipped when
self-hosted). -/
def geckoUpdateUrlRule (m : ManifestDoc) (selfHosted isPrivilegedAddon : Bool) :
    List Diag × Bool :=
  if !selfHosted &&
      jsTruthyOptStr ((m.applications.bind (fun a => a.gecko)).bind (fun g => g.update_url)) then
    if isPrivilegedAddon then ([Diag.mk .warning MANIFEST_UPDATE_URL], false)
    else ([Diag.mk .error MANIFEST_UPDATE_URL], true)
  else ([], false)

/-- Lines 615-629: the `strict_max_version` rule.  Language packs are
exempt; dictionaries get an error (and invalidate); every remaining kind
gets a notice. -/
def strictMaxVersionRule (m : ManifestDoc) : List Diag × Bool :=
  let kind := detectKind m
  if !(kind == AddonKind.languagePack) && jsTruthyOptStr (geckoStrictMaxVersion m) then
    if kind == AddonKind.dictionary then ([Diag.mk .error STRICT_MAX_VERSION], true)
    else ([Diag.mk .notice STRICT_MAX_VERSION], false)
  else ([], false)

/-- Lines 818-827, `validateExtensionID`: for manifest version 3 and above
(under JavaScript `<` semantics) a truthy `applications.gecko.id` is
required. -/
def validateExtensionIDRule (m : ManifestDoc) : List Diag × Bool :=
  if jsMvBelowThree m.manifest_version then ([], false)
  else if !(jsTruthyOptStr (getAddonId m)) then
    ([Diag.mk .error EXTENSION_ID_REQUIRED], true)
  else ([], false)

/-- The composed synchronous `_validate` pass over the rules embedded in
this file, in source order: the schema-error loop, the legacy applications
warnings, the `browser_specific_settings` merge, CSP validation, the
unused-update-url notice, the `granted_host_permissions` warning, the
dictionaries rule, the gecko update-url rule, the strict_max_version rule,
the default-locale and locale-consistency rules, the developer promotion,
the restricted-permissions rule and the extension-id rule.  (The
background/content-script file checks, the compatibility walk, the version
format check, the homepage blocklist and the hidden-addon rule are not
embedded; the asynchronous icon and theme-image validators are separate
entry points in the source and are modelled separately.)  Returns the
document after its two controlled mutations, the appended diagnostics and
the final `isValid`. -/
def runManifestValidation (m0 : ManifestDoc) (schemaOk : Bool)
    (schemaErrors : List SchemaError) (files : List String)
    (selfHosted isPrivilegedAddon : Bool)
    (restrictedPermissions : List (String × String)) :
    ManifestDoc × List Diag × Bool :=
  let s0 :=
    if schemaOk then ([], false)
    else processSchemaErrors m0.manifest_version isPrivilegedAddon schemaErrors
  let s1 := applicationsWarningsRule m0
  let m1 := applyBrowserSpecificSettings m0
  let s2 :=
    match m1.content_security_policy with
    | some v => validateCspPolicy v
    | none => ([], false)
  let s3 :=
    if jsTruthyOptStr m1.update_url then ([Diag.mk .notice MANIFEST_UNUSED_UPDATE], false)
    else ([], false)
  let s4 :=
    if m1.granted_host_permissions then
      ([Diag.mk .warning (manifestFieldPrivilegedOnly "granted_host_permissions")], false)
    else ([], false)
  let s5 := validateDictionaries m1 files
  let s6 := geckoUpdateUrlRule m1 selfHosted isPrivilegedAddon
  let s7 := strictMaxVersionRule m1
  let s8 := defaultLocaleMessagesRule m1 files
  let s9 := localesRule m1 files
  let m2 := promoteDeveloperInfo m1
  let s10 := validateRestrictedPermissions m2 restrictedPermissions
  let s11 := validateExtensionIDRule m2
  (m2,
   s0.1 ++ s1.1 ++ s2.1 ++ s3.1 ++ s4.1 ++ s5.1 ++ s6.1 ++ s7.1 ++ s8.1 ++ s9.1 ++
     s10.1 ++ s11.1,
   schemaOk && !(s0.2 || s1.2 || s2.2 || s3.2 || s4.2 || s5.2 || s6.2 || s7.2 || s8.2 ||
     s9.2 || s10.2 || s11.2))

/-- The observable state of a constructed `ManifestJSONParser`: the stored
document, the manifest diagnostics it appended (beyond those of the JSON
parse itself) and `this.isValid`. -/
structure ManifestParserState where
  parsedJSON : ManifestDoc
  diags : List Diag
  isValid : Bool
deriving DecidableEq, Repr

/-- Lines 104-143, the constructor after `this.parse(...)`: when the parsed
document is undefined or the parse marked the result invalid, the fixed
default document is substituted and no manifest validation runs at all;
otherwise the type flags are derived and `_validate` runs.  The tolerant
JSON decode itself (the `JSONParser` superclass) and the schema validator
are external boundaries, supplied as the parse outcome and the
`validate(document)` result. -/
def mkManifestParser (parsedJSON : Option ManifestDoc) (parseIsValid : Bool)
    (schemaOk : Bool) (schemaErrors : List SchemaError) (files : List String)
    (selfHosted isPrivilegedAddon : Bool)
    (restrictedPermissions : List (String × String)) : ManifestParserState :=
  match parsedJSON, parseIsValid with
  | some doc, true =>
    let r := runManifestValidation doc schemaOk schemaErrors files selfHosted
      isPrivilegedAddon restrictedPermissions
    { parsedJSON := r.1, diags := r.2.1, isValid := r.2.2 }
  | some _, false => { parsedJSON := defaultManifest, diags := [], isValid := false }
  | none, ok => { parsedJSON := defaultManifest, diags := [], isValid := ok }

/-- A well-formed plain Firefox version for the restricted-permission rule:
every dot-separated part is a non-empty digit run and the leading part is
positive (every real Firefox release version has this shape). -/
def isPlainPositiveVersion (v : String) : Bool :=
  let parts := splitOnSep '.' v.toList
  parts.all (fun p => !p.isEmpty && p.all Char.isDigit) &&
    (match parts with
     | p :: _ => !(natOfDigits p == 0)
     | [] => false)

/-! # Theorems -/

/-! ## Generic helper lemmas -/

theorem listAppendCancelLeft : ∀ (a b c : List Char), a ++ b = a ++ c → b = c := by
  intro a
  induction a with
  | nil => intro b c h; simpa using h
  | cons x xs ih =>
    intro b c h
    rw [List.cons_append, List.cons_append] at h
    exact ih b c (List.tail_eq_of_cons_eq h)

theorem strAppendCancelLeft : ∀ (a b c : String), a ++ b = a ++ c → b = c := by
  intro ⟨a⟩ ⟨b⟩ ⟨c⟩ h
  have hd : a ++ b = a ++ c := congrArg String.data h
  exact congrArg String.mk (listAppendCancelLeft a b c hd)

theorem foldlPairAppend {α β : Type} (h : α → List β × Bool) :
    ∀ (L : List α) (acc : List β × Bool),
      L.foldl (fun s x => (s.1 ++ (h x).1, s.2 || (h x).2)) acc =
        (acc.1 ++ L.flatMap (fun x => (h x).1), acc.2 || L.any (fun x => (h x).2)) := by
  intro L
  induction L with
  | nil => intro acc; simp
  | cons x rest ih =>
    intro acc
    rw [List.foldl_cons, ih, List.flatMap_cons, List.any_cons]
    simp [List.append_assoc, Bool.or_assoc]

/-! ## CSP analyzer lemmas -/

theorem scanValue_warnEval (c : String) (st : CspFlags) (v : String) :
    (scanValue c st v).warnEval = (st.warnEval || (v == "'unsafe-eval'")) := by
  obtain ⟨i, w, e⟩ := st
  unfold scanValue
  cases h1 : (v == "'unsafe-eval'") <;> cases h2 : isSecureCspValue v <;>
    cases e <;> simp [h1, h2]

theorem scanValue_warnCsp (c : String) (st : CspFlags) (v : String) :
    (scanValue c st v).warnCsp = (st.warnCsp || badToken v) := by
  obtain ⟨i, w, e⟩ := st
  unfold scanValue badToken
  cases h1 : (v == "'unsafe-eval'") <;> cases h2 : isSecureCspValue v <;>
    cases w <;> simp [h1, h2]

theorem scanValue_insecure (c : String) (st : CspFlags) (v : String) :
    (scanValue c st v).insecureSrc =
      (st.insecureSrc || ((c == "default-src") && badToken v)) := by
  obtain ⟨i, w, e⟩ := st
  unfold scanValue badToken
  cases h1 : (v == "'unsafe-eval'") <;> cases h2 : isSecureCspValue v <;>
    cases h3 : (c == "default-src") <;> cases i <;> simp [h1, h2, h3]

theorem scanFold_warnEval (c : String) (vs : List String) (st : CspFlags) :
    (vs.foldl (scanValue c) st).warnEval =
      (st.warnEval || vs.any (fun v => v == "'unsafe-eval'")) := by
  induction vs generalizing st with
  | nil => simp
  | cons v rest ih =>
    rw [List.foldl_cons, ih, List.any_cons, scanValue_warnEval, Bool.or_assoc]

theorem scanFold_warnCsp (c : String) (vs : List String) (st : CspFlags) :
    (vs.foldl (scanValue c) st).warnCsp = (st.warnCsp || vs.any badToken) := by
  induction vs generalizing st with
  | nil => simp
  | cons v rest ih =>
    rw [List.foldl_cons, ih, List.any_cons, scanValue_warnCsp, Bool.or_assoc]

theorem scanFold_insecure (c : String) (vs : List String) (st : CspFlags) :
    (vs.foldl (scanValue c) st).insecureSrc =
      (st.insecureSrc || ((c == "default-src") && vs.any badToken)) := by
  induction vs generalizing st with
  | nil => simp
  | cons v rest ih =>
    rw [List.foldl_cons, ih, List.any_cons, scanValue_insecure]
    cases h3 : (c == "default-src") <;> simp [h3, Bool.or_assoc]

theorem unsafeEval_not_secure : isSecureCspValue "'unsafe-eval'" = false := by decide

theorem allSecure_noBad (vs : List String) (h : vs.all isSecureCspValue = true) :
    vs.any badToken = false := by
  rw [List.any_eq_false]
  intro v hv
  have hs := List.all_eq_true.mp h v hv
  unfold badToken
  simp [hs]

theorem allSecure_noEval (vs : List String) (h : vs.all isSecureCspValue = true) :
    vs.any (fun v => v == "'unsafe-eval'") = false := by
  rw [List.any_eq_false]
  intro v hv
  have hs := List.all_eq_true.mp h v hv
  intro hveq
  rw [show v = "'unsafe-eval'" from by simpa using hveq] at hs
  rw [unsafeEval_not_secure] at hs
  exact Bool.false_ne_true hs

theorem scanFold_eq (c : String) (vs : List String) (st : CspFlags) :
    vs.foldl (scanValue c) st =
      { insecureSrc := st.insecureSrc || ((c == "default-src") && vs.any badToken)
        warnCsp := st.warnCsp || vs.any badToken
        warnEval := st.warnEval || vs.any (fun v => v == "'unsafe-eval'") } := by
  have h1 := scanFold_insecure c vs st
  have h2 := scanFold_warnCsp c vs st
  have h3 := scanFold_warnEval c vs st
  calc vs.foldl (scanValue c) st
      = { insecureSrc := (vs.foldl (scanValue c) st).insecureSrc
          warnCsp := (vs.foldl (scanValue c) st).warnCsp
          warnEval := (vs.foldl (scanValue c) st).warnEval } := rfl
    _ = _ := by rw [h1, h2, h3]

theorem cspStep_not_script (dirs : List (String × List String)) (st : CspFlags)
    (c : String) (hc : (c == "script-src") = false) :
    cspStep dirs st c =
      { insecureSrc := st.insecureSrc || ((c == "default-src") && dirHasBad dirs c)
        warnCsp := st.warnCsp || dirHasBad dirs c
        warnEval := st.warnEval || dirHasEval dirs c } := by
  obtain ⟨i, w, e⟩ := st
  unfold cspStep
  cases h : dirs.lookup c with
  | none => simp [dirHasBad, dirHasEval, h]
  | some vs => simp [dirHasBad, dirHasEval, h, hc, scanFold_eq]

theorem cspStep_script (dirs : List (String × List String)) (st : CspFlags) :
    cspStep dirs st "script-src" =
      (if st.insecureSrc && scriptSrcMakesSecure dirs then
        { insecureSrc := false, warnCsp := false, warnEval := st.warnEval }
      else
        { insecureSrc := st.insecureSrc
          warnCsp := st.warnCsp || dirHasBad dirs "script-src"
          warnEval := st.warnEval || dirHasEval dirs "script-src" }) := by
  obtain ⟨i, w, e⟩ := st
  have hsd : (("script-src" : String) == "default-src") = false := by decide
  unfold cspStep scriptSrcMakesSecure
  cases h : dirs.lookup "script-src" with
  | none => simp [dirHasBad, dirHasEval, h]
  | some vs =>
    cases i with
    | false => simp [dirHasBad, dirHasEval, h, hsd, scanFold_eq]
    | true =>
      cases ha : vs.all isSecureCspValue with
      | true => simp [dirHasBad, dirHasEval, h, ha]
      | false => simp [dirHasBad, dirHasEval, h, ha, hsd, scanFold_eq]

theorem makesSecure_noBad (dirs : List (String × List String))
    (h : scriptSrcMakesSecure dirs = true) : dirHasBad dirs "script-src" = false := by
  unfold scriptSrcMakesSecure at h
  unfold dirHasBad
  cases hl : dirs.lookup "script-src" with
  | none => rfl
  | some vs =>
    rw [hl] at h
    exact allSecure_noBad vs h

theorem makesSecure_noEval (dirs : List (String × List String))
    (h : scriptSrcMakesSecure dirs = true) : dirHasEval dirs "script-src" = false := by
  unfold scriptSrcMakesSecure at h
  unfold dirHasEval
  cases hl : dirs.lookup "script-src" with
  | none => rfl
  | some vs =>
    rw [hl] at h
    exact allSecure_noEval vs h

theorem cspAfterDefault (dirs : List (String × List String)) :
    cspStep dirs
      { insecureSrc := (dirs.lookup "default-src").isNone
        warnCsp := (dirs.lookup "default-src").isNone
        warnEval := false } "default-src" =
      { insecureSrc := defaultSrcInsecure dirs
        warnCsp := defaultSrcInsecure dirs
        warnEval := dirHasEval dirs "default-src" } := by
  rw [cspStep_not_script dirs _ "default-src" (by decide)]
  unfold defaultSrcInsecure dirHasBad
  cases h : dirs.lookup "default-src" with
  | none => simp [h]
  | some vs => simp [h]

theorem runCsp_warnCsp (dirs : List (String × List String)) :
    (runCspChecks dirs).warnCsp =
      (if defaultSrcInsecure dirs then
        (if scriptSrcMakesSecure dirs then cspTailBad dirs else true)
      else dirHasBad dirs "script-src" || cspTailBad dirs) := by
  unfold runCspChecks cspCandidates
  rw [List.foldl_cons, List.foldl_cons, List.foldl_cons, List.foldl_cons, List.foldl_cons,
    List.foldl_nil]
  rw [cspAfterDefault, cspStep_script]
  cases hd : defaultSrcInsecure dirs with
  | false =>
    rw [if_neg (by simp [hd])]
    rw [cspStep_not_script dirs _ "script-src-elem" (by decide),
      cspStep_not_script dirs _ "script-src-attr" (by decide),
      cspStep_not_script dirs _ "worker-src" (by decide)]
    simp [cspTailBad, Bool.or_assoc]
  | true =>
    cases hs : scriptSrcMakesSecure dirs with
    | true =>
      rw [if_pos (by simp [hs])]
      rw [cspStep_not_script dirs _ "script-src-elem" (by decide),
        cspStep_not_script dirs _ "script-src-attr" (by decide),
        cspStep_not_script dirs _ "worker-src" (by decide)]
      simp [cspTailBad, Bool.or_assoc]
    | false =>
      rw [if_neg (by simp [hs])]
      rw [cspStep_not_script dirs _ "script-src-elem" (by decide),
        cspStep_not_script dirs _ "script-src-attr" (by decide),
        cspStep_not_script dirs _ "worker-src" (by decide)]
      simp

theorem runCsp_warnEval (dirs : List (String × List String)) :
    (runCspChecks dirs).warnEval =
      (dirHasEval dirs "default-src" || dirHasEval dirs "script-src" ||
        dirHasEval dirs "script-src-elem" || dirHasEval dirs "script-src-attr" ||
        dirHasEval dirs "worker-src") := by
  unfold runCspChecks cspCandidates
  rw [List.foldl_cons, List.foldl_cons, List.foldl_cons, List.foldl_cons, List.foldl_cons,
    List.foldl_nil]
  rw [cspAfterDefault, cspStep_script]
  cases hd : defaultSrcInsecure dirs with
  | false =>
    rw [if_neg (by simp [hd])]
    rw [cspStep_not_script dirs _ "script-src-elem" (by decide),
      cspStep_not_script dirs _ "script-src-attr" (by decide),
      cspStep_not_script dirs _ "worker-src" (by decide)]
  | true =>
    cases hs : scriptSrcMakesSecure dirs with
    | true =>
      rw [if_pos (by simp [hs])]
      rw [cspStep_not_script dirs _ "script-src-elem" (by decide),
        cspStep_not_script dirs _ "script-src-attr" (by decide),
        cspStep_not_script dirs _ "worker-src" (by decide)]
      simp [makesSecure_noEval dirs hs, Bool.or_assoc]
    | false =>
      rw [if_neg (by simp [hs])]
      rw [cspStep_not_script dirs _ "script-src-elem" (by decide),
        cspStep_not_script dirs _ "script-src-attr" (by decide),
        cspStep_not_script dirs _ "worker-src" (by decide)]

theorem memCspWarn_iff (policy propName : String) :
    (Diag.mk .warning (manifestCsp propName) ∈ validateCspPolicyString policy propName ↔
      (runCspChecks (parseCspPolicy policy)).warnCsp = true) := by
  have hcode : ("MANIFEST_CSP_UNSAFE_EVAL" : String) ≠ "MANIFEST_CSP" := by decide
  have hne : manifestCspUnsafeEval propName ≠ manifestCsp propName := fun h =>
    hcode (congrArg Msg.code h)
  have hne2 : manifestCsp propName ≠ manifestCspUnsafeEval propName := fun h => hne h.symm
  unfold validateCspPolicyString
  cases he : (runCspChecks (parseCspPolicy policy)).warnEval <;>
    cases hc : (runCspChecks (parseCspPolicy policy)).warnCsp <;>
      simp [he, hc, hne, hne2]

theorem memCspEval_iff (policy propName : String) :
    (Diag.mk .warning (manifestCspUnsafeEval propName) ∈ validateCspPolicyString policy propName ↔
      (runCspChecks (parseCspPolicy policy)).warnEval = true) := by
  have hcode : ("MANIFEST_CSP_UNSAFE_EVAL" : String) ≠ "MANIFEST_CSP" := by decide
  have hne : manifestCspUnsafeEval propName ≠ manifestCsp propName := fun h =>
    hcode (congrArg Msg.code h)
  have hne2 : manifestCsp propName ≠ manifestCspUnsafeEval propName := fun h => hne h.symm
  unfold validateCspPolicyString
  cases he : (runCspChecks (parseCspPolicy policy)).warnEval <;>
    cases hc : (runCspChecks (parseCspPolicy policy)).warnCsp <;>
      simp [he, hc, hne, hne2]

/-- **C1** (amended).  For every validated content_security_policy string:
(a) if the policy has no default-src directive, has a script-src directive
whose every token is a recognized safe keyword, and no later-checked
directive contains a non-safe non-eval token, no insecure-CSP warning is
emitted; (b) a policy whose default-src contains a non-safe token other
than `'unsafe-eval'` yields an insecure-CSP warning unless an all-safe
script-src directive overrides it; (c) any policy containing the token
`'unsafe-eval'` in a checked directive yields the eval-specific warning
regardless of the other tokens; and (d) `'unsafe-eval'` by itself never
marks the policy insecure. -/
theorem claim_C1 (policy propName : String) :
    ((parseCspPolicy policy).lookup "default-src" = none →
      scriptSrcMakesSecure (parseCspPolicy policy) = true →
      cspTailBad (parseCspPolicy policy) = false →
      Diag.mk .warning (manifestCsp propName) ∉ validateCspPolicyString policy propName) ∧
    (∀ vs, (parseCspPolicy policy).lookup "default-src" = some vs →
      vs.any badToken = true →
      scriptSrcMakesSecure (parseCspPolicy policy) = false →
      Diag.mk .warning (manifestCsp propName) ∈ validateCspPolicyString policy propName) ∧
    (∀ c vs, c ∈ cspCandidates → (parseCspPolicy policy).lookup c = some vs →
      "'unsafe-eval'" ∈ vs →
      Diag.mk .warning (manifestCspUnsafeEval propName) ∈
        validateCspPolicyString policy propName) ∧
    (defaultSrcInsecure (parseCspPolicy policy) = false →
      dirHasBad (parseCspPolicy policy) "script-src" = false →
      cspTailBad (parseCspPolicy policy) = false →
      Diag.mk .warning (manifestCsp propName) ∉ validateCspPolicyString policy propName) := by
  refine ⟨?_, ?_, ?_, ?_⟩
  · intro hds hss htail
    rw [memCspWarn_iff, runCsp_warnCsp]
    have hd : defaultSrcInsecure (parseCspPolicy policy) = true := by
      unfold defaultSrcInsecure
      rw [hds]
    rw [hd, if_pos rfl, hss, if_pos rfl, htail]
    simp
  · intro vs hds hbad hss
    rw [memCspWarn_iff, runCsp_warnCsp]
    have hd : defaultSrcInsecure (parseCspPolicy policy) = true := by
      unfold defaultSrcInsecure
      rw [hds]
      simpa using hbad
    rw [hd, if_pos rfl, hss]
    simp
  · intro c vs hcand hlk hmem
    rw [memCspEval_iff, runCsp_warnEval]
    have heval : dirHasEval (parseCspPolicy policy) c = true := by
      unfold dirHasEval
      rw [hlk]
      exact List.any_eq_true.mpr ⟨"'unsafe-eval'", hmem, by simp⟩
    have : c = "default-src" ∨ c = "script-src" ∨ c = "script-src-elem" ∨
        c = "script-src-attr" ∨ c = "worker-src" := by
      simpa [cspCandidates] using hcand
    rcases this with h | h | h | h | h <;> rw [h] at heval <;> simp [heval]
  · intro hds hss htail
    rw [memCspWarn_iff, runCsp_warnCsp]
    rw [hds, if_neg (by simp), hss, htail]
    simp

/-- Witness for C1 at concrete policies: `"script-src 'self'"` with no
default-src yields no insecure-CSP warning; `"default-src *"` yields one;
`"default-src 'unsafe-eval'"` yields the eval warning but no insecure-CSP
warning. -/
theorem claim_C1_witness :
    (Diag.mk .warning (manifestCsp "content_security_policy") ∉
        validateCspPolicyString "script-src 'self'" "content_security_policy") ∧
    (Diag.mk .warning (manifestCsp "content_security_policy") ∈
        validateCspPolicyString "default-src *" "content_security_policy") ∧
    (Diag.mk .warning (manifestCspUnsafeEval "content_security_policy") ∈
        validateCspPolicyString "default-src 'unsafe-eval'" "content_security_policy") ∧
    (Diag.mk .warning (manifestCsp "content_security_policy") ∉
        validateCspPolicyString "default-src 'unsafe-eval'" "content_security_policy") :=
  ⟨(claim_C1 "script-src 'self'" "content_security_policy").1
      (by decide) (by decide) (by decide),
   (claim_C1 "default-src *" "content_security_policy").2.1 ["*"]
      (by decide) (by decide) (by decide),
   (claim_C1 "default-src 'unsafe-eval'" "content_security_policy").2.2.1
      "default-src" ["'unsafe-eval'"] (by decide) (by decide) (by decide),
   (claim_C1 "default-src 'unsafe-eval'" "content_security_policy").2.2.2
      (by decide) (by decide) (by decide)⟩

/-- **C1** counterexample to the claim as stated: the policy
`"default-src *; script-src 'self'"` has a default-src containing the
non-safe token `*`, yet the validator emits no warning at all — the
all-safe script-src clears the insecure flag that the bad default-src set,
so no insecure-CSP warning is produced, contradicting "a policy whose
default-src contains any non-safe token yields an insecure-CSP warning". -/
theorem claim_C1_counterexample :
    (parseCspPolicy "default-src *; script-src 'self'").lookup "default-src" = some ["*"] ∧
    isSecureCspValue "*" = false ∧
    validateCspPolicyString "default-src *; script-src 'self'" "content_security_policy" =
      [] := by
  decide

/-! ## Claim C2: manifest-version gated host-permission diagnostics -/

/-- **C2**.  For every raw schema issue whose classified code is one of the
two host-permission codes, `errorLookup` under manifest_version 2 returns
null and the schema loop emits nothing for the issue; under
manifest_version 3, an issue classified as `MANIFEST_HOST_PERMISSIONS`
yields exactly one warning and does not by itself set `isValid` to
false. -/
theorem claim_C2 (isPriv : Bool) (err : SchemaError) :
    (((classifySchemaError isPriv err).code = "MANIFEST_HOST_PERMISSIONS" ∨
      (classifySchemaError isPriv err).code = "MANIFEST_BAD_HOST_PERMISSION") →
      errorLookup (some 2) isPriv err = none ∧
        processSchemaError (some 2) isPriv err = ([], false)) ∧
    ((classifySchemaError isPriv err).code = "MANIFEST_HOST_PERMISSIONS" →
      processSchemaError (some 3) isPriv err =
        ([Diag.mk .warning (classifySchemaError isPriv err)], false)) := by
  constructor
  · intro h
    have hnone : errorLookup (some 2) isPriv err = none := by
      unfold errorLookup
      rcases h with h | h <;> simp [h] <;> decide
    refine ⟨hnone, ?_⟩
    unfold processSchemaError
    rw [hnone]
  · intro h
    have hsome : errorLookup (some 3) isPriv err = some (classifySchemaError isPriv err) := by
      unfold errorLookup
      rfl
    have hc1 : schemaWarningCodes.contains "MANIFEST_HOST_PERMISSIONS" = true := by decide
    have hc2 : (("MANIFEST_HOST_PERMISSIONS" : String) == "MANIFEST_BAD_PERMISSION") = false := by
      decide
    unfold processSchemaError
    rw [hsome]
    simp only [h, hc1, hc2]
    simp

/-- Witness for C2: a raw issue at `/host_permissions/0` classified (through
the array-element refinement) as `MANIFEST_HOST_PERMISSIONS` is suppressed
under manifest_version 2 and becomes a single non-invalidating warning
under manifest_version 3. -/
theorem claim_C2_witness :
    errorLookup (some 2) false
        { keyword := "anyOf", instancePath := "/host_permissions/0",
          message := "must match format", data := some (ErrData.str "<all_urls>"),
          privilegedPermissions := none } = none ∧
    processSchemaError (some 3) false
        { keyword := "anyOf", instancePath := "/host_permissions/0",
          message := "must match format", data := some (ErrData.str "<all_urls>"),
          privilegedPermissions := none } =
      ([Diag.mk .warning (classifySchemaError false
          { keyword := "anyOf", instancePath := "/host_permissions/0",
            message := "must match format", data := some (ErrData.str "<all_urls>"),
            privilegedPermissions := none })], false) :=
  ⟨((claim_C2 false
      { keyword := "anyOf", instancePath := "/host_permissions/0",
        message := "must match format", data := some (ErrData.str "<all_urls>"),
        privilegedPermissions := none }).1 (Or.inl (by decide))).1,
   (claim_C2 false
      { keyword := "anyOf", instancePath := "/host_permissions/0",
        message := "must match format", data := some (ErrData.str "<all_urls>"),
        privilegedPermissions := none }).2 (by decide)⟩

/-! ## Claim C3: the dictionaries rule -/

theorem validateDictionaries_eq (m : ManifestDoc) (files : List String)
    (dicts : List (String × String)) (hd : m.dictionaries = some dicts) :
    validateDictionaries m files =
      ((if (getAddonId m).isNone then [Diag.mk .error MANIFEST_DICT_MISSING_ID] else []) ++
        (if dicts.length < 1 then [Diag.mk .error MANIFEST_EMPTY_DICTS]
         else if dicts.length > 1 then [Diag.mk .error MANIFEST_MULTIPLE_DICTS] else []) ++
        dicts.flatMap (fun kv => (dictFileChecks files kv).1),
       (if (getAddonId m).isNone then true else false) ||
        (if dicts.length < 1 then true else if dicts.length > 1 then true else false) ||
        dicts.any (fun kv => (dictFileChecks files kv).2)) := by
  unfold validateDictionaries
  rw [hd]
  simp only [foldlPairAppend]
  split_ifs <;> simp

theorem dictFileChecks_codes (files : List String) (dicts : List (String × String)) :
    ∀ d ∈ dicts.flatMap (fun kv => (dictFileChecks files kv).1),
      d.msg.code = "MANIFEST_DICT_NOT_FOUND" := by
  intro d hdmem
  rcases List.mem_flatMap.mp hdmem with ⟨kv, _, hdin⟩
  unfold dictFileChecks validateFileExistsInPackage at hdin
  by_cases hc1 : normalizePath kv.2 ∈ files <;>
    by_cases hc2 : normalizePath (replaceDicWithAff kv.2) ∈ files <;>
      simp [hc1, hc2] at hdin
  all_goals rcases hdin with rfl | rfl <;> rfl

/-- **C3**.  Whenever the manifest declares a `dictionaries` key: a missing
derivable addon id yields an error and invalidates; an empty dictionaries
map yields the empty-dictionaries error and more than one entry yields
exactly one multiple-dictionaries error, both invalidating; and for every
declared dictionary path, that path and its derived `.aff` sibling each
yield a dictionary-file-missing error when absent from the package. -/
theorem claim_C3 (m : ManifestDoc) (files : List String) (dicts : List (String × String))
    (hd : m.dictionaries = some dicts) :
    ((getAddonId m).isNone = true →
      Diag.mk .error MANIFEST_DICT_MISSING_ID ∈ (validateDictionaries m files).1 ∧
        (validateDictionaries m files).2 = true) ∧
    (dicts = [] →
      Diag.mk .error MANIFEST_EMPTY_DICTS ∈ (validateDictionaries m files).1 ∧
        (validateDictionaries m files).2 = true) ∧
    (1 < dicts.length →
      (validateDictionaries m files).1.count (Diag.mk .error MANIFEST_MULTIPLE_DICTS) = 1 ∧
        (validateDictionaries m files).2 = true) ∧
    (∀ kv ∈ dicts, files.contains (normalizePath kv.2) = false →
      Diag.mk .error (manifestDictionaryFileMissing (normalizePath kv.2) "binary") ∈
        (validateDictionaries m files).1) ∧
    (∀ kv ∈ dicts, files.contains (normalizePath (replaceDicWithAff kv.2)) = false →
      Diag.mk .error
          (manifestDictionaryFileMissing (normalizePath (replaceDicWithAff kv.2)) "binary") ∈
        (validateDictionaries m files).1) := by
  rw [validateDictionaries_eq m files dicts hd]
  refine ⟨?_, ?_, ?_, ?_, ?_⟩
  · intro hid
    simp [hid]
  · intro hnil
    subst hnil
    simp
  · intro hlen
    have hnot1 : ¬(dicts.length < 1) := by omega
    constructor
    · rw [List.count_append, List.count_append]
      have c2 : (if dicts.length < 1 then [Diag.mk .error MANIFEST_EMPTY_DICTS]
          else if dicts.length > 1 then [Diag.mk .error MANIFEST_MULTIPLE_DICTS]
          else ([] : List Diag)).count (Diag.mk .error MANIFEST_MULTIPLE_DICTS) = 1 := by
        rw [if_neg hnot1, if_pos hlen]
        decide
      have c1 : (if (getAddonId m).isNone then [Diag.mk .error MANIFEST_DICT_MISSING_ID]
          else ([] : List Diag)).count (Diag.mk .error MANIFEST_MULTIPLE_DICTS) = 0 := by
        cases hid : (getAddonId m).isNone <;> simp [hid]
        decide
      have c3 : (dicts.flatMap (fun kv => (dictFileChecks files kv).1)).count
          (Diag.mk .error MANIFEST_MULTIPLE_DICTS) = 0 := by
        rw [List.count_eq_zero]
        intro hmem
        have hcode := dictFileChecks_codes files dicts _ hmem
        exact absurd hcode (by decide)
      rw [c1, c2, c3]
    · have h2 : (if dicts.length < 1 then true
          else if dicts.length > 1 then true else false) = true := by
        rw [if_neg hnot1, if_pos hlen]
      cases hid : (getAddonId m).isNone <;> simp [hid, h2]
      exact Or.inl (Or.inr hlen)
  · intro kv hkv hmiss
    have hmiss' : ¬(normalizePath kv.2 ∈ files) := by simpa using hmiss
    have hin : Diag.mk .error (manifestDictionaryFileMissing (normalizePath kv.2) "binary") ∈
        (dictFileChecks files kv).1 := by
      unfold dictFileChecks validateFileExistsInPackage
      simp [hmiss']
    exact List.mem_append.mpr (Or.inr (List.mem_flatMap.mpr ⟨kv, hkv, hin⟩))
  · intro kv hkv hmiss
    have hmiss' : ¬(normalizePath (replaceDicWithAff kv.2) ∈ files) := by simpa using hmiss
    have hin : Diag.mk .error
        (manifestDictionaryFileMissing (normalizePath (replaceDicWithAff kv.2)) "binary") ∈
        (dictFileChecks files kv).1 := by
      unfold dictFileChecks validateFileExistsInPackage
      by_cases hc1 : normalizePath kv.2 ∈ files <;> simp [hc1, hmiss']
    exact List.mem_append.mpr (Or.inr (List.mem_flatMap.mpr ⟨kv, hkv, hin⟩))

/-- Witness for C3: a manifest with two dictionary entries and a derivable
id yields exactly one multiple-dictionaries error and validity false; one
with an empty dictionaries map yields the empty-dictionaries error; the
missing `.dic` and `.aff` files are each reported. -/
theorem claim_C3_witness :
    ((validateDictionaries
        { defaultManifest with
            dictionaries := some [("fr", "dicts/fr.dic"), ("de", "dicts/de.dic")]
            applications := some ⟨some ⟨some "x@y", none, none, none⟩⟩ } []).1.count
        (Diag.mk .error MANIFEST_MULTIPLE_DICTS) = 1 ∧
      (validateDictionaries
        { defaultManifest with
            dictionaries := some [("fr", "dicts/fr.dic"), ("de", "dicts/de.dic")]
            applications := some ⟨some ⟨some "x@y", none, none, none⟩⟩ } []).2 = true) ∧
    (Diag.mk .error MANIFEST_EMPTY_DICTS ∈
      (validateDictionaries { defaultManifest with dictionaries := some [] } []).1 ∧
      (validateDictionaries { defaultManifest with dictionaries := some [] } []).2 = true) ∧
    Diag.mk .error (manifestDictionaryFileMissing "dicts/fr.dic" "binary") ∈
      (validateDictionaries
        { defaultManifest with
            dictionaries := some [("fr", "dicts/fr.dic"), ("de", "dicts/de.dic")]
            applications := some ⟨some ⟨some "x@y", none, none, none⟩⟩ } []).1 ∧
    Diag.mk .error (manifestDictionaryFileMissing "dicts/fr.aff" "binary") ∈
      (validateDictionaries
        { defaultManifest with
            dictionaries := some [("fr", "dicts/fr.dic"), ("de", "dicts/de.dic")]
            applications := some ⟨some ⟨some "x@y", none, none, none⟩⟩ } []).1 :=
  ⟨(claim_C3
      { defaultManifest with
          dictionaries := some [("fr", "dicts/fr.dic"), ("de", "dicts/de.dic")]
          applications := some ⟨some ⟨some "x@y", none, none, none⟩⟩ } []
      [("fr", "dicts/fr.dic"), ("de", "dicts/de.dic")] rfl).2.2.1 (by decide),
   ⟨(claim_C3 { defaultManifest with dictionaries := some [] } [] [] rfl).2.1 rfl,
    (claim_C3
      { defaultManifest with
          dictionaries := some [("fr", "dicts/fr.dic"), ("de", "dicts/de.dic")]
          applications := some ⟨some ⟨some "x@y", none, none, none⟩⟩ } []
      [("fr", "dicts/fr.dic"), ("de", "dicts/de.dic")] rfl).2.2.2.1
      ("fr", "dicts/fr.dic") (by decide) (by decide),
    (claim_C3
      { defaultManifest with
          dictionaries := some [("fr", "dicts/fr.dic"), ("de", "dicts/de.dic")]
          applications := some ⟨some ⟨some "x@y", none, none, none⟩⟩ } []
      [("fr", "dicts/fr.dic"), ("de", "dicts/de.dic")] rfl).2.2.2.2
      ("fr", "dicts/fr.dic") (by decide) (by decide)⟩⟩

/-! ## Claim C4: locale-consistency rule -/

theorem collectLocalesAux_nodup :
    ∀ (fs : List String) (acc : List String × List String), acc.1.Nodup →
      (fs.foldl collectLocalesStep acc).1.Nodup := by
  intro fs
  induction fs with
  | nil => intro acc h; simpa using h
  | cons f rest ih =>
    intro acc h
    rw [List.foldl_cons]
    apply ih
    unfold collectLocalesStep
    cases hl : localeOfPath f with
    | none => simpa using h
    | some loc =>
      cases hc : acc.1.contains loc with
      | true =>
        have hmem2 : loc ∈ acc.1 := by simpa using hc
        simpa [hmem2] using h
      | false =>
        have hnotmem : loc ∉ acc.1 := by simpa using hc
        simp only [hc, Bool.false_eq_true, if_false]
        exact List.Nodup.append h (List.nodup_singleton loc)
          (fun x hx hx2 => by
            rw [List.mem_singleton] at hx2
            exact hnotmem (hx2 ▸ hx))

theorem collectLocales_nodup (files : List String) : (collectLocales files).1.Nodup :=
  collectLocalesAux_nodup files ([], []) List.nodup_nil

/-- **C4**.  When a default locale is declared, every locale directory
under `_locales` lacking a `messages.json` yields exactly one error naming
that locale and validity becomes false; when no default locale is declared
and at least one locale has a `messages.json`, exactly one
no-default-locale error is emitted and validity becomes false. -/
theorem claim_C4 (m : ManifestDoc) (files : List String) :
    (jsTruthyOptStr m.default_locale = true →
      ∀ loc, loc ∈ (collectLocales files).1 →
        (collectLocales files).2.contains loc = false →
        (localesRule m files).1.count
            (Diag.mk .error (noMessagesFileInLocales ("_locales/" ++ loc))) = 1 ∧
          (localesRule m files).2 = true) ∧
    (jsTruthyOptStr m.default_locale = false →
      (collectLocales files).2 ≠ [] →
      localesRule m files = ([Diag.mk .error NO_DEFAULT_LOCALE], true)) := by
  constructor
  · intro hdl loc hmem hnc
    have hinj1 : Function.Injective (Diag.mk Severity.error) := by
      intro a b h
      simpa [Diag.mk.injEq] using h
    have hinj2 : Function.Injective (fun l => noMessagesFileInLocales ("_locales/" ++ l)) := by
      intro a b h
      have htext := congrArg Msg.text h
      simp only [noMessagesFileInLocales] at htext
      exact strAppendCancelLeft "_locales/" a b
        (strAppendCancelLeft "Empty language directory " _ _ htext)
    have hfilter : loc ∈ (collectLocales files).1.filter
        (fun l => !((collectLocales files).2.contains l)) :=
      List.mem_filter.mpr ⟨hmem, by simpa using hnc⟩
    have hfnodup : ((collectLocales files).1.filter
        (fun l => !((collectLocales files).2.contains l))).Nodup :=
      List.Nodup.filter _ (collectLocales_nodup files)
    have hcount : ((collectLocales files).1.filter
        (fun l => !((collectLocales files).2.contains l))).count loc = 1 :=
      List.count_eq_one_of_mem hfnodup hfilter
    have herrne : (((collectLocales files).1.filter
        (fun l => !((collectLocales files).2.contains l))).map
        (fun l => noMessagesFileInLocales ("_locales/" ++ l))).isEmpty = false := by
      cases hE : ((collectLocales files).1.filter
          (fun l => !((collectLocales files).2.contains l))).map
          (fun l => noMessagesFileInLocales ("_locales/" ++ l)) with
      | nil =>
        rw [List.map_eq_nil_iff] at hE
        rw [hE] at hfilter
        exact absurd hfilter (List.not_mem_nil loc)
      | cons a t => rfl
    have hrule : localesRule m files =
        ((((collectLocales files).1.filter
            (fun l => !((collectLocales files).2.contains l))).map
              (fun l => noMessagesFileInLocales ("_locales/" ++ l))).map (Diag.mk Severity.error),
         true) := by
      unfold localesRule
      rw [hdl]
      simp [herrne]
      exact ⟨loc, hmem, by simpa using hnc⟩
    rw [hrule]
    refine ⟨?_, rfl⟩
    rw [List.count_map_of_injective (β := Diag)
      (((collectLocales files).1.filter
        (fun l => !((collectLocales files).2.contains l))).map
          (fun l => noMessagesFileInLocales ("_locales/" ++ l)))
      (Diag.mk Severity.error) hinj1 (noMessagesFileInLocales ("_locales/" ++ loc))]
    rw [List.count_map_of_injective
      ((collectLocales files).1.filter (fun l => !((collectLocales files).2.contains l)))
      (fun l => noMessagesFileInLocales ("_locales/" ++ l)) hinj2 loc]
    exact hcount
  · intro hdl hne
    have hempty : (collectLocales files).2.isEmpty = false := by
      cases hW : (collectLocales files).2 with
      | nil => exact absurd hW hne
      | cons a t => rfl
    unfold localesRule
    rw [hdl]
    simp [hempty]

/-- Witness for C4 at the spec's example: a package with
`_locales/fr/messages.json` and `_locales/de/` (no messages file).  With
`default_locale = "fr"` the rule yields one error naming `de` and validity
false; with no default locale it yields the no-default-locale error. -/
theorem claim_C4_witness :
    ((localesRule { defaultManifest with default_locale := some "fr" }
        ["_locales/fr/messages.json", "_locales/de/foo.txt"]).1.count
        (Diag.mk .error (noMessagesFileInLocales "_locales/de")) = 1 ∧
      (localesRule { defaultManifest with default_locale := some "fr" }
        ["_locales/fr/messages.json", "_locales/de/foo.txt"]).2 = true) ∧
    localesRule defaultManifest ["_locales/fr/messages.json", "_locales/de/foo.txt"] =
      ([Diag.mk .error NO_DEFAULT_LOCALE], true) :=
  ⟨(claim_C4 { defaultManifest with default_locale := some "fr" }
      ["_locales/fr/messages.json", "_locales/de/foo.txt"]).1 (by decide) "de"
      (by decide) (by decide),
   (claim_C4 defaultManifest ["_locales/fr/messages.json", "_locales/de/foo.txt"]).2
      (by decide) (by decide)⟩

/-! ## Claim C5: decoded icon geometry checks -/

/-- **C5**.  For a successfully decoded icon: differing width and height
with a non-svg mime yield a not-square error and invalidate; differing
width and height with the svg mime yield only a warning; a square icon with
a declared size key, non-svg mime and a differing actual size yields a
size-mismatch warning (never invalidating). -/
theorem claim_C5 (p : String) (sz : Option String) (info : ImageInfo) :
    (info.width ≠ info.height → info.mime ≠ some "image/svg+xml" →
      validateIcon p sz (Except.ok info) = ([Diag.mk .error (iconIsNotSquare p)], true)) ∧
    (info.width ≠ info.height → info.mime = some "image/svg+xml" →
      validateIcon p sz (Except.ok info) = ([Diag.mk .warning (iconIsNotSquare p)], false)) ∧
    (∀ s, sz = some s → info.width = info.height →
      info.mime ≠ some "image/svg+xml" → jsNatEq info.width (jsParseInt s) = false →
      validateIcon p sz (Except.ok info) =
        ([Diag.mk .warning (iconSizeInvalid p (jsParseInt s) info.width)], false)) := by
  refine ⟨?_, ?_, ?_⟩
  · intro hwh hmime
    unfold validateIcon
    simp [hwh, hmime]
  · intro hwh hmime
    unfold validateIcon
    simp [hwh, hmime]
  · intro s hs hwh hmime hne
    subst hs
    have hne' : jsNatEq info.height (jsParseInt s) = false := hwh ▸ hne
    unfold validateIcon
    simp [hwh, hmime, hne, hne']

/-- Witness for C5: a 32x16 raster icon errors as not square; a 32x16 svg
icon only warns; a square 32x32 png declared under the size key "48" warns
about the size mismatch. -/
theorem claim_C5_witness :
    validateIcon "icon.png" (some "32") (Except.ok ⟨32, 16, some "image/png"⟩) =
      ([Diag.mk .error (iconIsNotSquare "icon.png")], true) ∧
    validateIcon "icon.svg" (some "32") (Except.ok ⟨32, 16, some "image/svg+xml"⟩) =
      ([Diag.mk .warning (iconIsNotSquare "icon.svg")], false) ∧
    validateIcon "icon.png" (some "48") (Except.ok ⟨32, 32, some "image/png"⟩) =
      ([Diag.mk .warning (iconSizeInvalid "icon.png" (jsParseInt "48") 32)], false) :=
  ⟨(claim_C5 "icon.png" (some "32") ⟨32, 16, some "image/png"⟩).1 (by decide) (by decide),
   ⟨(claim_C5 "icon.svg" (some "32") ⟨32, 16, some "image/svg+xml"⟩).2.1 (by decide) rfl,
    (claim_C5 "icon.png" (some "48") ⟨32, 32, some "image/png"⟩).2.2 "48" rfl rfl
      (by decide) (by decide)⟩⟩

/-! ## Claim C6: restricted permissions and semantic version comparison -/

theorem takeWhile_of_all {p : Char → Bool} :
    ∀ (l : List Char), l.all p = true → l.takeWhile p = l := by
  intro l h
  induction l with
  | nil => rfl
  | cons c cs ih =>
    rw [List.all_cons, Bool.and_eq_true] at h
    simp [List.takeWhile_cons, h.1, ih h.2]

theorem dropWhile_of_all {p : Char → Bool} :
    ∀ (l : List Char), l.all p = true → l.dropWhile p = [] := by
  intro l h
  induction l with
  | nil => rfl
  | cons c cs ih =>
    rw [List.all_cons, Bool.and_eq_true] at h
    simp [List.dropWhile_cons, h.1, ih h.2]

theorem cmpPartLists_cons_head (x y : Nat × List Char) (A B : List (Nat × List Char))
    (h : ¬(cmpPart x y = 0)) : cmpPartLists (x :: A) (y :: B) = cmpPart x y := by
  simp [cmpPartLists, h]

/-- An absent minimum version is stringified to the truthy `"undefined"`,
which the Mozilla comparison places strictly below every plain positive
version. -/
theorem mozCompare_undefined_neg (v : String) (hv : isPlainPositiveVersion v = true) :
    mozCompare "undefined" v = -1 := by
  unfold isPlainPositiveVersion at hv
  rw [Bool.and_eq_true] at hv
  obtain ⟨hall, hhead⟩ := hv
  cases hp : splitOnSep '.' v.toList with
  | nil =>
    rw [hp] at hhead
    exact absurd hhead (by decide)
  | cons p rest =>
    rw [hp] at hall hhead
    have hk : ¬(natOfDigits p = 0) := by simpa using hhead
    have hpos : 0 < natOfDigits p := Nat.pos_of_ne_zero hk
    have hpdigits : p.all Char.isDigit = true := by
      have hmp := List.all_eq_true.mp hall p (List.mem_cons_self p rest)
      rw [Bool.and_eq_true] at hmp
      exact hmp.2
    have hvp : versionPartOf p = (natOfDigits p, []) := by
      unfold versionPartOf
      rw [takeWhile_of_all p hpdigits, dropWhile_of_all p hpdigits]
    have hcmp : cmpPart (0, "undefined".toList) (natOfDigits p, []) = -1 := by
      unfold cmpPart
      rw [if_pos hpos]
    have hpa : (splitOnSep '.' (String.toList "undefined")).map versionPartOf
        = [(0, "undefined".toList)] := by decide
    unfold mozCompare
    rw [hp, hpa, List.map_cons, hvp]
    simp only [padParts, List.singleton_append, List.cons_append]
    rw [cmpPartLists_cons_head _ _ _ _ (by rw [hcmp]; decide)]
    exact hcmp

theorem isEmpty_false_of_ne_nil {α : Type} {l : List α} (h : l ≠ []) : l.isEmpty = false := by
  cases l with
  | nil => exact absurd rfl h
  | cons a t => rfl

theorem validateRestrictedPermissions_eq (m : ManifestDoc)
    (table : List (String × String))
    (hpim : (m.permissions.getD []).map strToLowerStr ≠ []) :
    validateRestrictedPermissions m table =
      ((table.filter (fun pv =>
          ((m.permissions.getD []).map strToLowerStr).contains pv.1 &&
            ((match geckoStrictMinVersion m with
              | some s => s
              | none => "undefined") == "" ||
             mozCompare
               (match geckoStrictMinVersion m with
                | some s => s
                | none => "undefined") pv.2 == -1))).map
          (fun pv => Diag.mk .error (makeRestrictedPermission pv.1 pv.2)),
       !(table.filter (fun pv =>
          ((m.permissions.getD []).map strToLowerStr).contains pv.1 &&
            ((match geckoStrictMinVersion m with
              | some s => s
              | none => "undefined") == "" ||
             mozCompare
               (match geckoStrictMinVersion m with
                | some s => s
                | none => "undefined") pv.2 == -1))).isEmpty) := by
  unfold validateRestrictedPermissions
  rw [if_neg]
  intro hcontra
  rw [List.isEmpty_iff] at hcontra
  exact hpim hcontra

/-- Injectivity of the restricted-permission message in both arguments. -/
theorem makeRestrictedPermission_inj (a1 a2 b1 b2 : String)
    (h : Diag.mk .error (makeRestrictedPermission a1 b1) =
      Diag.mk .error (makeRestrictedPermission a2 b2)) : a1 = a2 ∧ b1 = b2 := by
  have htext := congrArg (fun d => d.msg.text) h
  have hdescr := congrArg (fun d => d.msg.description) h
  simp only [makeRestrictedPermission] at htext hdescr
  refine ⟨strAppendCancelLeft "The use of permission " a1 a2 htext, ?_⟩
  rw [Option.some.injEq] at hdescr
  exact strAppendCancelLeft "requires Firefox version " b1 b2 hdescr

/-- **C6**.  For every restricted permission `(perm, v)` in the table that
appears (after lower-casing) among the manifest's permissions, with `v` a
plain positive version and a declared minimum version that is not the empty
string: the restricted-permission error is emitted and validity becomes
false if and only if the declared minimum Firefox version is absent or
compares semantically below `v` under the Mozilla comparison. -/
theorem claim_C6 (m : ManifestDoc) (table : List (String × String)) (perm v : String)
    (hpv : (perm, v) ∈ table)
    (hmem : perm ∈ (m.permissions.getD []).map strToLowerStr)
    (hv : isPlainPositiveVersion v = true)
    (hne : geckoStrictMinVersion m ≠ some "") :
    ((Diag.mk .error (makeRestrictedPermission perm v) ∈
        (validateRestrictedPermissions m table).1 ∧
      (validateRestrictedPermissions m table).2 = true) ↔
      (geckoStrictMinVersion m = none ∨
        (∃ s, geckoStrictMinVersion m = some s ∧ mozCompare s v = -1))) := by
  have hpim : (m.permissions.getD []).map strToLowerStr ≠ [] :=
    List.ne_nil_of_mem hmem
  rw [validateRestrictedPermissions_eq m table hpim]
  have hcontains : ((m.permissions.getD []).map strToLowerStr).contains perm = true := by
    simpa using hmem
  cases hmin : geckoStrictMinVersion m with
  | none =>
    simp only [hmin]
    have hcond : (((m.permissions.getD []).map strToLowerStr).contains perm &&
        (("undefined" == "") || mozCompare "undefined" v == -1)) = true := by
      rw [hcontains, mozCompare_undefined_neg v hv]
      decide
    have hhits : (perm, v) ∈ table.filter (fun pv =>
        ((m.permissions.getD []).map strToLowerStr).contains pv.1 &&
          (("undefined" == "") || mozCompare "undefined" pv.2 == -1)) :=
      List.mem_filter.mpr ⟨hpv, hcond⟩
    constructor
    · intro _
      simp
    · intro _
      refine ⟨List.mem_map.mpr ⟨(perm, v), hhits, rfl⟩, ?_⟩
      rw [isEmpty_false_of_ne_nil (List.ne_nil_of_mem hhits)]
      rfl
  | some s =>
    have hs : s ≠ "" := fun hcontra => hne (by rw [hmin, hcontra])
    have hsB : (s == "") = false := by
      cases hb : (s == "") with
      | false => rfl
      | true => exact absurd (by simpa using hb) hs
    simp only [hmin]
    constructor
    · intro h
      rcases List.mem_map.mp h.1 with ⟨pv, hpvhits, heq⟩
      rcases List.mem_filter.mp hpvhits with ⟨_, hcond⟩
      obtain ⟨h1, h2⟩ := makeRestrictedPermission_inj pv.1 perm pv.2 v heq
      rw [Bool.and_eq_true, Bool.or_eq_true] at hcond
      rcases hcond.2 with hbad | hcmp
      · rw [hsB] at hbad
        exact absurd hbad (by decide)
      · rw [h2] at hcmp
        exact Or.inr ⟨s, rfl, by simpa using hcmp⟩
    · intro h
      have hcmp : mozCompare s v = -1 := by
        rcases h with h | ⟨s', hs', hc⟩
        · exact absurd h (by simp)
        · rw [Option.some.injEq] at hs'
          rw [hs']
          exact hc
      have hcond : (((m.permissions.getD []).map strToLowerStr).contains perm &&
          ((s == "") || mozCompare s v == -1)) = true := by
        rw [hcontains, hsB, hcmp]
        decide
      have hhits : (perm, v) ∈ table.filter (fun pv =>
          ((m.permissions.getD []).map strToLowerStr).contains pv.1 &&
            ((s == "") || mozCompare s pv.2 == -1)) :=
        List.mem_filter.mpr ⟨hpv, hcond⟩
      refine ⟨List.mem_map.mpr ⟨(perm, v), hhits, rfl⟩, ?_⟩
      rw [isEmpty_false_of_ne_nil (List.ne_nil_of_mem hhits)]
      rfl

/-- Witness for C6: a restricted permission requiring version 78 errors
when the manifest declares 60 and yields no hit when it declares 80. -/
theorem claim_C6_witness :
    (Diag.mk .error (makeRestrictedPermission "proxy" "78") ∈
        (validateRestrictedPermissions
          { defaultManifest with
              permissions := some ["Proxy"]
              applications := some ⟨some ⟨none, some "60", none, none⟩⟩ }
          [("proxy", "78")]).1 ∧
      (validateRestrictedPermissions
          { defaultManifest with
              permissions := some ["Proxy"]
              applications := some ⟨some ⟨none, some "60", none, none⟩⟩ }
          [("proxy", "78")]).2 = true) ∧
    ¬(Diag.mk .error (makeRestrictedPermission "proxy" "78") ∈
        (validateRestrictedPermissions
          { defaultManifest with
              permissions := some ["Proxy"]
              applications := some ⟨some ⟨none, some "80", none, none⟩⟩ }
          [("proxy", "78")]).1 ∧
      (validateRestrictedPermissions
          { defaultManifest with
              permissions := some ["Proxy"]
              applications := some ⟨some ⟨none, some "80", none, none⟩⟩ }
          [("proxy", "78")]).2 = true) :=
  ⟨(claim_C6
      { defaultManifest with
          permissions := some ["Proxy"]
          applications := some ⟨some ⟨none, some "60", none, none⟩⟩ }
      [("proxy", "78")] "proxy" "78" (by decide) (by decide) (by decide)
      (by decide)).mpr
      (Or.inr ⟨"60", rfl, by decide⟩),
   fun hcontra =>
    (by decide :
      ¬(geckoStrictMinVersion
          { defaultManifest with
              permissions := some ["Proxy"]
              applications := some ⟨some ⟨none, some "80", none, none⟩⟩ } = none ∨
        (∃ s, geckoStrictMinVersion
          { defaultManifest with
              permissions := some ["Proxy"]
              applications := some ⟨some ⟨none, some "80", none, none⟩⟩ } = some s ∧
          mozCompare s "78" = -1)))
      ((claim_C6
        { defaultManifest with
            permissions := some ["Proxy"]
            applications := some ⟨some ⟨none, some "80", none, none⟩⟩ }
        [("proxy", "78")] "proxy" "78" (by decide) (by decide) (by decide)
        (by decide)).mp hcontra)⟩

/-! ## Claim C7: strict_max_version rule -/

/-- **C7** (amended).  Whenever the manifest declares
`applications.gecko.strict_max_version` (truthy): a Dictionary add-on gets
an error and validity becomes false; a LanguagePack add-on is exempt and
gets no diagnostic; every other addon kind gets a notice. -/
theorem claim_C7 (m : ManifestDoc)
    (hsmv : jsTruthyOptStr (geckoStrictMaxVersion m) = true) :
    (detectKind m = AddonKind.dictionary →
      strictMaxVersionRule m = ([Diag.mk .error STRICT_MAX_VERSION], true)) ∧
    (detectKind m = AddonKind.languagePack → strictMaxVersionRule m = ([], false)) ∧
    (detectKind m ≠ AddonKind.dictionary → detectKind m ≠ AddonKind.languagePack →
      strictMaxVersionRule m = ([Diag.mk .notice STRICT_MAX_VERSION], false)) := by
  refine ⟨?_, ?_, ?_⟩
  · intro hk
    unfold strictMaxVersionRule
    rw [hk, hsmv]
    decide
  · intro hk
    unfold strictMaxVersionRule
    rw [hk, hsmv]
    decide
  · intro hk1 hk2
    unfold strictMaxVersionRule
    rw [hsmv]
    have hb1 : (detectKind m == AddonKind.languagePack) = false := by
      cases hb : (detectKind m == AddonKind.languagePack) with
      | false => rfl
      | true => exact absurd (by simpa using hb) hk2
    have hb2 : (detectKind m == AddonKind.dictionary) = false := by
      cases hb : (detectKind m == AddonKind.dictionary) with
      | false => rfl
      | true => exact absurd (by simpa using hb) hk1
    simp [hb1, hb2]

/-- Witness for C7: a dictionary manifest with a strict_max_version errors
and invalidates; an ordinary extension gets only a notice. -/
theorem claim_C7_witness :
    strictMaxVersionRule
        { defaultManifest with
            dictionaries := some [("fr", "dicts/fr.dic")]
            applications := some ⟨some ⟨some "x@y", none, some "100.0", none⟩⟩ } =
      ([Diag.mk .error STRICT_MAX_VERSION], true) ∧
    strictMaxVersionRule
        { defaultManifest with
            applications := some ⟨some ⟨none, none, some "100.0", none⟩⟩ } =
      ([Diag.mk .notice STRICT_MAX_VERSION], false) :=
  ⟨(claim_C7
      { defaultManifest with
          dictionaries := some [("fr", "dicts/fr.dic")]
          applications := some ⟨some ⟨some "x@y", none, some "100.0", none⟩⟩ }
      (by decide)).1 (by decide),
   (claim_C7
      { defaultManifest with
          applications := some ⟨some ⟨none, none, some "100.0", none⟩⟩ }
      (by decide)).2.2 (by decide) (by decide)⟩

/-- **C7** counterexample to the claim as stated: a language pack declaring
`applications.gecko.strict_max_version` is not a Dictionary, yet the rule
emits nothing — not the notice the claim asserts for "every other addon
kind". -/
theorem claim_C7_counterexample :
    jsTruthyOptStr (geckoStrictMaxVersion
      { defaultManifest with
          langpack_id := some "langpack1"
          applications := some ⟨some ⟨none, none, some "100.0", none⟩⟩ }) = true ∧
    detectKind
      { defaultManifest with
          langpack_id := some "langpack1"
          applications := some ⟨some ⟨none, none, some "100.0", none⟩⟩ } ≠
      AddonKind.dictionary ∧
    strictMaxVersionRule
      { defaultManifest with
          langpack_id := some "langpack1"
          applications := some ⟨some ⟨none, none, some "100.0", none⟩⟩ } = ([], false) := by
  decide

/-! ## Claim C8: metadata extraction -/

theorem mem_addToSet (s : List String) (y x : String) :
    x ∈ addToSet s y ↔ x ∈ s ∨ x = y := by
  unfold addToSet
  cases hc : s.contains y with
  | true =>
    have hy : y ∈ s := by simpa using hc
    simp only [if_pos rfl]
    exact ⟨Or.inl, fun h2 => h2.elim id (fun he => he ▸ hy)⟩
  | false =>
    simp

theorem addToSet_nodup (s : List String) (y : String) (h : s.Nodup) :
    (addToSet s y).Nodup := by
  unfold addToSet
  cases hc : s.contains y with
  | true => simpa using h
  | false =>
    have hnot : y ∉ s := by simpa using hc
    simp only [Bool.false_eq_true, if_false]
    exact List.Nodup.append h (List.nodup_singleton y)
      (fun x hx hx2 => by
        rw [List.mem_singleton] at hx2
        exact hnot (hx2 ▸ hx))

theorem foldl_addToSet_mem {α : Type} (g : α → String) :
    ∀ (L : List α) (acc : List String) (x : String),
      (x ∈ L.foldl (fun a e => addToSet a (g e)) acc ↔ x ∈ acc ∨ ∃ e ∈ L, g e = x) := by
  intro L
  induction L with
  | nil => intro acc x; simp
  | cons e rest ih =>
    intro acc x
    rw [List.foldl_cons, ih, mem_addToSet]
    simp only [List.mem_cons]
    constructor
    · rintro ((h | h) | ⟨e', he', hg⟩)
      · exact Or.inl h
      · exact Or.inr ⟨e, Or.inl rfl, h.symm⟩
      · exact Or.inr ⟨e', Or.inr he', hg⟩
    · rintro (h | ⟨e', he' | he', hg⟩)
      · exact Or.inl (Or.inl h)
      · exact Or.inl (Or.inr (he' ▸ hg.symm))
      · exact Or.inr ⟨e', he', hg⟩

theorem foldl_addToSet_nodup {α : Type} (g : α → String) :
    ∀ (L : List α) (acc : List String), acc.Nodup →
      (L.foldl (fun a e => addToSet a (g e)) acc).Nodup := by
  intro L
  induction L with
  | nil => intro acc h; simpa using h
  | cons e rest ih =>
    intro acc h
    rw [List.foldl_cons]
    exact ih _ (addToSet_nodup acc (g e) h)

theorem addApiPaths_mem (acc : List String) (kv : String × ExperimentApi) (x : String) :
    x ∈ addApiPaths acc kv ↔
      x ∈ acc ∨ ∃ p ∈ (experimentEndpointPaths kv.2).filter (fun p => !p.isEmpty),
        joinDot p = x := by
  unfold addApiPaths
  exact foldl_addToSet_mem joinDot _ acc x

theorem experimentFold_mem :
    ∀ (apis : List (String × ExperimentApi)) (acc : List String) (x : String),
      (x ∈ apis.foldl addApiPaths acc ↔
        x ∈ acc ∨ ∃ kv ∈ apis,
          ∃ p ∈ (experimentEndpointPaths kv.2).filter (fun p => !p.isEmpty),
            joinDot p = x) := by
  intro apis
  induction apis with
  | nil => intro acc x; simp
  | cons kv rest ih =>
    intro acc x
    rw [List.foldl_cons, ih, addApiPaths_mem]
    simp only [List.mem_cons]
    constructor
    · rintro ((h | h) | ⟨kv', hkv', hp⟩)
      · exact Or.inl h
      · exact Or.inr ⟨kv, Or.inl rfl, h⟩
      · exact Or.inr ⟨kv', Or.inr hkv', hp⟩
    · rintro (h | ⟨kv', hkv' | hkv', hp⟩)
      · exact Or.inl (Or.inl h)
      · exact Or.inl (Or.inr (hkv' ▸ hp))
      · exact Or.inr ⟨kv', hkv', hp⟩

theorem experimentFold_nodup :
    ∀ (apis : List (String × ExperimentApi)) (acc : List String), acc.Nodup →
      (apis.foldl addApiPaths acc).Nodup := by
  intro apis
  induction apis with
  | nil => intro acc h; simpa using h
  | cons kv rest ih =>
    intro acc h
    rw [List.foldl_cons]
    apply ih
    unfold addApiPaths
    exact foldl_addToSet_nodup joinDot _ acc h

/-- **C8**.  For every parsed manifest, the metadata's id is the derived
addon id (a string or null), its firefoxMinVersion the declared strict
minimum version (a string or null), its manifestVersion the manifest's
`manifest_version`, and its experimentApiPaths the duplicate-free set of
dot-joined strings flattened from every non-empty parent / child paths
array of every declared experiment API. -/
theorem claim_C8 (m : ManifestDoc) :
    (getMetadata m).manifestVersion = m.manifest_version ∧
    (getMetadata m).id = getAddonId m ∧
    (getMetadata m).firefoxMinVersion = geckoStrictMinVersion m ∧
    (getMetadata m).experimentApiPaths.Nodup ∧
    (∀ s, s ∈ (getMetadata m).experimentApiPaths ↔
      ∃ kv ∈ m.experiment_apis.getD [], ∃ p ∈ experimentEndpointPaths kv.2,
        p ≠ [] ∧ s = joinDot p) := by
  refine ⟨rfl, rfl, rfl, ?_, ?_⟩
  · show (getExperimentApiPaths m).Nodup
    unfold getExperimentApiPaths
    cases m.experiment_apis with
    | none => exact List.nodup_nil
    | some apis => exact experimentFold_nodup apis [] List.nodup_nil
  · intro s
    show s ∈ getExperimentApiPaths m ↔ _
    unfold getExperimentApiPaths
    cases hE : m.experiment_apis with
    | none => simp [hE]
    | some apis =>
      rw [experimentFold_mem apis [] s]
      simp only [hE, Option.getD_some, List.not_mem_nil, false_or, List.mem_filter]
      constructor
      · rintro ⟨kv, hkv, p, ⟨hp, hpe⟩, hj⟩
        exact ⟨kv, hkv, p, hp, by simpa using hpe, hj.symm⟩
      · rintro ⟨kv, hkv, p, hp, hpe, hj⟩
        exact ⟨kv, hkv, p, ⟨hp, by simpa using hpe⟩, hj.symm⟩

/-- Witness-style instantiation of C8 at a concrete manifest with one
experiment API. -/
theorem claim_C8_witness :
    "some.name" ∈ (getMetadata
      { defaultManifest with
          experiment_apis := some
            [("some-name", ⟨some ⟨some [["some", "name"], []]⟩, none⟩)] }).experimentApiPaths ∧
    (getMetadata
      { defaultManifest with
          experiment_apis := some
            [("some-name", ⟨some ⟨some [["some", "name"], []]⟩, none⟩)] }).manifestVersion =
      none :=
  ⟨((claim_C8
      { defaultManifest with
          experiment_apis := some
            [("some-name", ⟨some ⟨some [["some", "name"], []]⟩, none⟩)] }).2.2.2.2
      "some.name").mpr
      ⟨("some-name", ⟨some ⟨some [["some", "name"], []]⟩, none⟩), by decide,
        ["some", "name"], by decide, by decide, by decide⟩,
   (claim_C8
      { defaultManifest with
          experiment_apis := some
            [("some-name", ⟨some ⟨some [["some", "name"], []]⟩, none⟩)] }).1⟩

/-! ## Claim C9: per-path deduplication in the icon scan -/

theorem count_append_singleton {α : Type} [BEq α] (l : List α) (x a : α) :
    (l ++ [x]).count a = l.count a + (if x == a then 1 else 0) := by
  rw [List.count_append]
  simp [List.count_cons]

theorem iconMissingDiag_beq_false (q p : String) (h : ¬(q = p)) :
    ((Diag.mk .error (manifestIconMissing q)) == (Diag.mk .error (manifestIconMissing p))) =
      false := by
  rw [beq_eq_false_iff_ne]
  intro he
  have htext := congrArg (fun d => d.msg.text) he
  simp only [manifestIconMissing] at htext
  exact h (strAppendCancelLeft "An icon defined in the manifest could not be found at " q p
    htext)

theorem wrongExtDiag_beq_false (p : String) :
    ((Diag.mk .warning WRONG_ICON_EXTENSION) == (Diag.mk .error (manifestIconMissing p))) =
      false := by
  rw [beq_eq_false_iff_ne]
  intro he
  have hs : Severity.warning = Severity.error := congrArg Diag.sev he
  exact absurd hs (by decide)

theorem iconScan_missing_invariant (files : List String) (p : String) :
    ∀ (icons : List (Option String × String)) (st : IconScanState),
      ((p ∉ st.errorIcons →
        st.diags.count (Diag.mk .error (manifestIconMissing p)) = 0) ∧
       st.diags.count (Diag.mk .error (manifestIconMissing p)) ≤ 1) →
      ((p ∉ (icons.foldl (validateIconsStep files) st).errorIcons →
        (icons.foldl (validateIconsStep files) st).diags.count
          (Diag.mk .error (manifestIconMissing p)) = 0) ∧
       (icons.foldl (validateIconsStep files) st).diags.count
         (Diag.mk .error (manifestIconMissing p)) ≤ 1) := by
  intro icons
  induction icons with
  | nil => intro st h; simpa using h
  | cons entry rest ih =>
    intro st h
    rw [List.foldl_cons]
    apply ih
    obtain ⟨h0, h1⟩ := h
    simp only [validateIconsStep]
    by_cases hfile : normalizePath entry.2 ∈ files
    · have hfileB : files.contains (normalizePath entry.2) = true := by simpa using hfile
      rw [hfileB]
      cases hext : IMAGE_FILE_EXTENSIONS.contains (getNormalizedExtension
          (normalizePath entry.2)) with
      | true => exact ⟨h0, h1⟩
      | false =>
        simp only [Bool.not_false, Bool.not_true, Bool.false_eq_true, if_false, if_true]
        cases herr : st.errorIcons.contains (normalizePath entry.2) with
        | true => exact ⟨h0, h1⟩
        | false =>
          simp only [Bool.not_false, if_true]
          constructor
          · intro hnp
            rw [count_append_singleton, wrongExtDiag_beq_false]
            simpa using h0 hnp
          · rw [count_append_singleton, wrongExtDiag_beq_false]
            simpa using h1
    · have hfileB : files.contains (normalizePath entry.2) = false := by simpa using hfile
      rw [hfileB]
      cases herr : st.errorIcons.contains (normalizePath entry.2) with
      | true =>
        simp only [Bool.not_false, Bool.not_true, Bool.false_eq_true, if_false, if_true]
        exact ⟨h0, h1⟩
      | false =>
        simp only [Bool.not_false, if_true]
        by_cases hqp : normalizePath entry.2 = p
        · constructor
          · intro hnp
            exact absurd (List.mem_append.mpr (Or.inr (List.mem_singleton.mpr hqp.symm))) hnp
          · rw [count_append_singleton]
            have hq0 : st.diags.count (Diag.mk .error (manifestIconMissing p)) = 0 := by
              apply h0
              intro hmem
              have : st.errorIcons.contains (normalizePath entry.2) = true := by
                rw [hqp]
                simpa using hmem
              rw [this] at herr
              exact absurd herr (by decide)
            rw [hq0, hqp]
            simp
        · constructor
          · intro hnp
            rw [count_append_singleton, iconMissingDiag_beq_false _ _ hqp]
            have hnp' : p ∉ st.errorIcons := fun hmem =>
              hnp (List.mem_append.mpr (Or.inl hmem))
            simpa using h0 hnp'
          · rw [count_append_singleton, iconMissingDiag_beq_false _ _ hqp]
            simpa using h1

/-- **C9** (amended).  Within one icon-validation pass, the missing-icon
error is emitted at most once for any given normalized path (the
`errorIcons` list deduplicates it); other icon diagnostic codes are not
deduplicated and may repeat for the same path. -/
theorem claim_C9 (m : ManifestDoc) (files : List String) (p : String) :
    (validateIcons m files).diags.count (Diag.mk .error (manifestIconMissing p)) ≤ 1 :=
  (iconScan_missing_invariant files p (collectIcons m)
    { errorIcons := [], diags := [], invalid := false, pending := [] }
    ⟨fun _ => rfl, by simp⟩).2

/-- **C9** counterexample to the claim as stated: the same path `a.txt`
(present in the package, with a disallowed extension) referenced both from
the top-level icons map and from `browser_action.default_icon` produces two
identical wrong-icon-extension warnings — a duplicate (code, target-path)
diagnostic for one asset path, because the extension branch checks the
`errorIcons` list but never records the path in it. -/
theorem claim_C9_counterexample :
    (validateIcons
      { defaultManifest with
          icons := some [("32", "a.txt")]
          browser_action := some ⟨some (DefaultIcon.single "a.txt"), none⟩ }
      ["a.txt"]).diags =
      [Diag.mk .warning WRONG_ICON_EXTENSION, Diag.mk .warning WRONG_ICON_EXTENSION] := by
  decide

/-! ## Claim C10: constructor fallback on parse failure -/

/-- **C10**.  When the JSON parse yields no document or already marked the
result invalid, the constructor stores the fixed default document, performs
no manifest validation (no diagnostics are appended regardless of the
schema validator outcome, the file listing or any option), leaves
`isValid` as the parse left it, and `getMetadata` then reports null for id,
manifestVersion, name and version. -/
theorem claim_C10 (parsed : Option ManifestDoc) (parseIsValid schemaOk : Bool)
    (errs : List SchemaError) (files : List String)
    (selfHosted isPrivilegedAddon : Bool) (table : List (String × String))
    (h : parsed = none ∨ parseIsValid = false) :
    (mkManifestParser parsed parseIsValid schemaOk errs files selfHosted
        isPrivilegedAddon table).parsedJSON = defaultManifest ∧
    (mkManifestParser parsed parseIsValid schemaOk errs files selfHosted
        isPrivilegedAddon table).diags = [] ∧
    (mkManifestParser parsed parseIsValid schemaOk errs files selfHosted
        isPrivilegedAddon table).isValid = parseIsValid ∧
    (getMetadata (mkManifestParser parsed parseIsValid schemaOk errs files selfHosted
        isPrivilegedAddon table).parsedJSON).id = none ∧
    (getMetadata (mkManifestParser parsed parseIsValid schemaOk errs files selfHosted
        isPrivilegedAddon table).parsedJSON).manifestVersion = none ∧
    (getMetadata (mkManifestParser parsed parseIsValid schemaOk errs files selfHosted
        isPrivilegedAddon table).parsedJSON).name = none ∧
    (getMetadata (mkManifestParser parsed parseIsValid schemaOk errs files selfHosted
        isPrivilegedAddon table).parsedJSON).version = none := by
  rcases h with hp | hv
  · subst hp
    cases parseIsValid <;> exact ⟨rfl, rfl, rfl, rfl, rfl, rfl, rfl⟩
  · subst hv
    cases parsed <;> exact ⟨rfl, rfl, rfl, rfl, rfl, rfl, rfl⟩

/-- Witness for C10: a failed parse with an arbitrary well-formed document
available and schema validation reporting success still yields the default
document, no diagnostics and null metadata. -/
theorem claim_C10_witness :
    (mkManifestParser (some defaultManifest) false true [] ["manifest.json"] false false
        []).parsedJSON = defaultManifest ∧
    (mkManifestParser (some defaultManifest) false true [] ["manifest.json"] false false
        []).diags = [] ∧
    (mkManifestParser (some defaultManifest) false true [] ["manifest.json"] false false
        []).isValid = false ∧
    (getMetadata (mkManifestParser (some defaultManifest) false true [] ["manifest.json"]
        false false []).parsedJSON).id = none ∧
    (getMetadata (mkManifestParser (some defaultManifest) false true [] ["manifest.json"]
        false false []).parsedJSON).manifestVersion = none ∧
    (getMetadata (mkManifestParser (some defaultManifest) false true [] ["manifest.json"]
        false false []).parsedJSON).name = none ∧
    (getMetadata (mkManifestParser (some defaultManifest) false true [] ["manifest.json"]
        false false []).parsedJSON).version = none :=
  claim_C10 (some defaultManifest) false true [] ["manifest.json"] false false []
    (Or.inr rfl)
